import Mathlib

/-!
Verification development for the DS-MCP-FLOWISE repository.

The definitions below are a shallow embedding of the repository's
TypeScript source:

* the structural extraction engine (`findMatchingBracket`,
  `splitArrayIntoObjects`, `extractArrayContent`, the regex-based field
  extractors and `parseInputObject`) from `scripts/extract-nodes` (the
  unnamed source part containing those functions);
* the hierarchical store writer (`insertInputs`);
* the type-compatibility resolver (`TYPE_HIERARCHY`, `isTypeCompatible`,
  `getCompatibleOutputTypes`, `getAcceptingInputTypes`) and the flow
  validator (`validateFlow`) from the MCP server source.

Text is modelled as `List Char` (a JS string as a sequence of code
points); JS `number` indices are `Nat` with the failure sentinel `-1`
kept as `Int` where the source returns it; `null`/`undefined` become
`Option`; JS `||`-truthiness of strings (empty string is falsy) is made
explicit at each use site.
-/

/-! ## Character constants (brackets, quotes, escape) -/

def obrace : Char := Char.ofNat 123
def cbrace : Char := Char.ofNat 125
def obrack : Char := Char.ofNat 91
def cbrack : Char := Char.ofNat 93
def quoteS : Char := Char.ofNat 39
def quoteD : Char := Char.ofNat 34
def quoteB : Char := Char.ofNat 96
def escCh : Char := Char.ofNat 92

/-- The three quote styles recognized by the scanner: `'`, `"`, backtick. -/
def isQuoteCh (ch : Char) : Bool := ch = quoteS || ch = quoteD || ch = quoteB

/-- JS `\s` (the whitespace characters that occur in the scanned sources). -/
def isWsCh (ch : Char) : Bool :=
  ch = ' ' || ch = Char.ofNat 9 || ch = Char.ofNat 10 || ch = Char.ofNat 13 ||
  ch = Char.ofNat 11 || ch = Char.ofNat 12

/-- JS `\w` = `[A-Za-z0-9_]` (used for the `\b` word boundary). -/
def isWordCh (ch : Char) : Bool := ch.isAlphanum || ch = '_'

def isDigitCh (ch : Char) : Bool := ch.isDigit

/-! ## Structural Scanner: `findMatchingBracket`

Source:
```
function findMatchingBracket(content, startPos, openChar, closeChar) {
  let depth = 1;
  let pos = startPos;
  while (pos < content.length && depth > 0) {
    const char = content[pos];
    if (char === "'" || char === '"' || char === '`') {
      const quote = char;
      pos++;
      while (pos < content.length && content[pos] !== quote) {
        if (content[pos] === '\x5c') pos++;
        pos++;
      }
    } else if (char === openChar) depth++;
    else if (char === closeChar) depth--;
    pos++;
  }
  return depth === 0 ? pos - 1 : -1;
}
```
-/

/-- Number of characters the inner string-skipping loop advances over the
remaining input (everything up to, and excluding, the closing quote; an
escape character consumes the following character as well, which is how the
loop can overshoot the end on a trailing escape). -/
def skipStringAux (q : Char) : List Char → Nat
  | [] => 0
  | ch :: rest =>
    if ch = q then 0
    else if ch = escCh then
      match rest with
      | [] => 2
      | _ :: rest2 => 2 + skipStringAux q rest2
    else 1 + skipStringAux q rest

/-- Position at which the inner string-skipping loop of
`findMatchingBracket` leaves `pos`: at the closing quote, or at/past the
end of the input when the string literal is unterminated. -/
def skipStringPos (content : List Char) (q : Char) (pos : Nat) : Nat :=
  pos + skipStringAux q (content.drop pos)

/-- The outer loop of `findMatchingBracket`, with explicit structural
fuel so that the definition evaluates inside the kernel.  The loop
advances `pos` by at least one per iteration, so any fuel of at least
`content.length + 1 - pos` preserves the invariant and the fuel-exhausted
branch coincides with the loop exit (see `fmbLoopF_irrel`); the wrapper
`fmbLoop` below supplies `content.length + 1`. -/
def fmbLoopF (content : List Char) (openChar closeChar : Char) :
    Nat → Nat → Nat → Int
  | 0, pos, depth => if depth = 0 then (pos : Int) - 1 else -1
  | fuel + 1, pos, depth =>
    if h : pos < content.length ∧ 0 < depth then
      let ch := content.get ⟨pos, h.1⟩
      if isQuoteCh ch then
        fmbLoopF content openChar closeChar fuel
          (skipStringPos content ch (pos + 1) + 1) depth
      else if ch = openChar then
        fmbLoopF content openChar closeChar fuel (pos + 1) (depth + 1)
      else if ch = closeChar then
        fmbLoopF content openChar closeChar fuel (pos + 1) (depth - 1)
      else
        fmbLoopF content openChar closeChar fuel (pos + 1) depth
    else
      if depth = 0 then (pos : Int) - 1 else -1

/-- The `depth`/`pos` loop of `findMatchingBracket`: returns `pos - 1`
when depth reaches zero and `-1` when the input runs out first. -/
def fmbLoop (content : List Char) (openChar closeChar : Char)
    (pos depth : Nat) : Int :=
  fmbLoopF content openChar closeChar (content.length + 1) pos depth

/-- `findMatchingBracket(content, startPos, openChar, closeChar)`. -/
def findMatchingBracket (content : List Char) (startPos : Nat)
    (openChar closeChar : Char) : Int :=
  fmbLoop content openChar closeChar startPos 1

/-! ## Segmenter helpers -/

/-- JS `content.indexOf(ch, start)` (for a single character), with `None`
for the `-1` result. -/
def indexOfFrom (content : List Char) (ch : Char) (start : Nat) : Option Nat :=
  match (content.drop start).findIdx? (fun c => c = ch) with
  | some j => some (start + j)
  | none => none

/-- JS `content.substring(a, b)` for `a ≤ b` (all call sites in the source
satisfy this; see the scanner lower-bound lemma proved below). -/
def listExtract (content : List Char) (a b : Nat) : List Char :=
  (content.drop a).take (b - a)

/-- `extractArrayContent(content, startPos)`: find the next `[`, find its
matching `]` with the scanner, return the span between them and the close
position; `None` models the `null` return. -/
def extractArrayContent (content : List Char) (startPos : Nat) :
    Option (List Char × Nat) :=
  match indexOfFrom content obrack startPos with
  | none => none
  | some openPos =>
    let closePos := findMatchingBracket content (openPos + 1) obrack cbrack
    if closePos = -1 then none
    else some (listExtract content (openPos + 1) closePos.toNat, closePos.toNat)

/-- The loop of `splitArrayIntoObjects`: find the next `{` from `pos`,
find its matching `}`, emit the span including both braces, resume one
past the close.  The `pos < next` guard encodes the loop progress fact
(the scanner's result is never below the position it starts from); the
`else` branch is unreachable. -/
def splitLoopF (content : List Char) : Nat → Nat → List (List Char)
  | 0, _ => []
  | fuel + 1, pos =>
    if pos < content.length then
      match indexOfFrom content obrace pos with
      | none => []
      | some objStart =>
        let closeI := findMatchingBracket content (objStart + 1) obrace cbrace
        if closeI = -1 then []
        else
          let next := closeI.toNat + 1
          if pos < next then
            listExtract content objStart next :: splitLoopF content fuel next
          else []
    else []

def splitLoop (content : List Char) (pos : Nat) : List (List Char) :=
  splitLoopF content (content.length + 1) pos

/-- `splitArrayIntoObjects(arrayContent)`. -/
def splitArrayIntoObjects (arrayContent : List Char) : List (List Char) :=
  splitLoop arrayContent 0

/-! ## Value-extraction utilities

The source locates fields with regexes applied to the whole span; each
regex is modelled by a direct leftmost-match scanner with the same
semantics.

```
function extractStringValue(content, propertyName) {
  const pattern = new RegExp(`(?:this\.)?PROP\s*[:=]\s*['"B]([^'"B]+)['"B]`);
  ...
}
```
(`B` stands for the backtick character; the capture is one or more
characters that are not any of the three quote characters, delimited by
any of the three quote characters.) -/

def thisDotKey : List Char := 't' :: 'h' :: 'i' :: 's' :: '.' :: []

/-- Literal-prefix match: if `pat` is a prefix of `cs`, return the rest. -/
def matchLit : List Char → List Char → Option (List Char)
  | [], cs => some cs
  | _ :: _, [] => none
  | p :: ps, c :: cs => if c = p then matchLit ps cs else none

def skipWs (cs : List Char) : List Char := cs.dropWhile isWsCh

/-- Match `PROP\s*[:=]\s*['"B]([^'"B]+)['"B]` at the head of `cs`,
returning the capture group. -/
def matchStringProp (prop cs : List Char) : Option (List Char) :=
  match matchLit prop cs with
  | none => none
  | some r1 =>
    match skipWs r1 with
    | [] => none
    | c :: r2 =>
      if c = ':' || c = '=' then
        match skipWs r2 with
        | [] => none
        | q :: r3 =>
          if isQuoteCh q then
            let cap := r3.takeWhile (fun ch => !isQuoteCh ch)
            let rest := r3.dropWhile (fun ch => !isQuoteCh ch)
            match cap, rest with
            | [], _ => none
            | _ :: _, [] => none
            | _ :: _, _ :: _ => some cap
          else none
      else none

/-- Match the optional `(?:this\.)?` prefix, then the rest of the string
pattern (JS regex alternative order: with the prefix first). -/
def matchStringPropAt (prop cs : List Char) : Option (List Char) :=
  (match matchLit thisDotKey cs with
   | some r => matchStringProp prop r
   | none => none).orElse (fun _ => matchStringProp prop cs)

/-- `extractStringValue(content, propertyName)`: leftmost match wins. -/
def extractStringValue : List Char → List Char → Option (List Char)
  | [], prop => matchStringPropAt prop []
  | c :: rest, prop =>
    (matchStringPropAt prop (c :: rest)).orElse
      (fun _ => extractStringValue rest prop)

/-- Match `PROP\s*[:=]\s*(true|false)` at the head of `cs`. -/
def matchBoolProp (prop cs : List Char) : Option Bool :=
  match matchLit prop cs with
  | none => none
  | some r1 =>
    match skipWs r1 with
    | [] => none
    | c :: r2 =>
      if c = ':' || c = '=' then
        let r3 := skipWs r2
        match matchLit ('t' :: 'r' :: 'u' :: 'e' :: []) r3 with
        | some _ => some true
        | none =>
          match matchLit ('f' :: 'a' :: 'l' :: 's' :: 'e' :: []) r3 with
          | some _ => some false
          | none => none
      else none

def matchBoolPropAt (prop cs : List Char) : Option Bool :=
  (match matchLit thisDotKey cs with
   | some r => matchBoolProp prop r
   | none => none).orElse (fun _ => matchBoolProp prop cs)

/-- `extractBooleanValue(content, propertyName)`. -/
def extractBooleanValue : List Char → List Char → Option Bool
  | [], prop => matchBoolPropAt prop []
  | c :: rest, prop =>
    (matchBoolPropAt prop (c :: rest)).orElse
      (fun _ => extractBooleanValue rest prop)

/-! Number extraction: the regex captures `([\d.]+)` and the source applies
`parseFloat`.  `parseFloat` on such a capture yields the leading
`digits [. digits]` prefix as an exact decimal value, or NaN when the
capture has no leading digit and no digit right after a leading dot.
The value is modelled as an exact rational (every reachable comparison in
the claims — nonzero-ness and equality with small integers — agrees with
IEEE semantics on these inputs); NaN is collapsed into `None`, which has
the same truthiness as `null` at every use site kept in this model. -/

def digitsToNat (ds : List Char) : Nat :=
  ds.foldl (fun acc d => 10 * acc + (d.toNat - 48)) 0

/-- `parseFloat` restricted to strings matching `[\d.]+`. -/
def parseFloatTok (cs : List Char) : Option ℚ :=
  let intPart := cs.takeWhile isDigitCh
  let r := cs.drop intPart.length
  match r with
  | c :: r2 =>
    if c = '.' then
      let frac := r2.takeWhile isDigitCh
      if intPart = [] && frac = [] then none
      else some ((digitsToNat intPart : ℚ) + (digitsToNat frac : ℚ) / ((10 : ℚ) ^ frac.length))
    else if intPart = [] then none else some (digitsToNat intPart : ℚ)
  | [] => if intPart = [] then none else some (digitsToNat intPart : ℚ)

/-- Match `PROP\s*[:=]\s*([\d.]+)` at the head of `cs`, returning the
parsed value of the capture. -/
def matchNumProp (prop cs : List Char) : Option ℚ :=
  match matchLit prop cs with
  | none => none
  | some r1 =>
    match skipWs r1 with
    | [] => none
    | c :: r2 =>
      if c = ':' || c = '=' then
        let r3 := skipWs r2
        let cap := r3.takeWhile (fun ch => isDigitCh ch || ch = '.')
        match cap with
        | [] => none
        | _ :: _ => parseFloatTok cap
      else none

def matchNumPropAt (prop cs : List Char) : Option ℚ :=
  (match matchLit thisDotKey cs with
   | some r => matchNumProp prop r
   | none => none).orElse (fun _ => matchNumProp prop cs)

/-- `extractNumberValue(content, propertyName)` (NaN collapsed to `None`). -/
def extractNumberValue : List Char → List Char → Option ℚ
  | [], prop => matchNumPropAt prop []
  | c :: rest, prop =>
    (matchNumPropAt prop (c :: rest)).orElse
      (fun _ => extractNumberValue rest prop)

/-! ## Key-with-array matches (`\barray\s*:\s*\[` etc.) -/

/-- Does `KEY\s*:\s*\[` match at the head of `cs`? -/
def matchKeyBracket (key cs : List Char) : Bool :=
  match matchLit key cs with
  | none => false
  | some r1 =>
    match skipWs r1 with
    | c :: r2 => c = ':' && (match skipWs r2 with
      | c2 :: _ => c2 = obrack
      | [] => false)
    | [] => false

/-- Index of the first match of `KEY\s*:\s*\[` in `cs`, with an optional
leading word-boundary requirement (`\b`): the previous character, if any,
must not be a word character.  `prev` is the character before the current
scan position. -/
def findKeyMatchAux (requireWB : Bool) (key : List Char) :
    List Char → Option Char → Nat → Option Nat
  | [], _, _ => none
  | c :: rest, prev, idx =>
    let wbOk : Bool := !requireWB || (match prev with
      | none => true
      | some p => !isWordCh p)
    if wbOk && matchKeyBracket key (c :: rest) then some idx
    else findKeyMatchAux requireWB key rest (some c) (idx + 1)

/-- `content.match(/PAT/)?.index` for the `KEY\s*:\s*\[` patterns used by
`parseInputObject` (`\barray`, `\btabs`, plain `options`). -/
def findKeyMatch (requireWB : Bool) (key cs : List Char) : Option Nat :=
  findKeyMatchAux requireWB key cs none 0

/-! ## Field Extractor: `parseInputObject`

The `ParsedInput` record models the source interface restricted to the
fields the verified claims are about: the identity fields (`label`,
`name`, `type`), the leaf-only fields that the array-kind mitigation
discards (`placeholder`, `rows`, `generateInstruction`,
`generateDocStoreDescription`, `hideCodeExecute`), `description`, and the
three relation-bearing fields (`options`, `array`, `tabs`).  The source's
remaining scalar fields (`loadMethod`, `warning`, `step`, the boolean
flags, `show`/`hide`, `hint`, `datagrid`, `codeExample`,
`credentialNames`, `default`) are each computed from `objContent` by an
independent extractor call and assigned to their own record field; they
do not influence any modelled field, so omitting them cannot change any
modelled value. -/

def labelKey : List Char := "label".toList
def nameKey : List Char := "name".toList
def typeKey : List Char := "type".toList
def descriptionKey : List Char := "description".toList
def placeholderKey : List Char := "placeholder".toList
def rowsKey : List Char := "rows".toList
def generateInstructionKey : List Char := "generateInstruction".toList
def generateDocStoreKey : List Char := "generateDocStoreDescription".toList
def hideCodeExecuteKey : List Char := "hideCodeExecute".toList
def optionsKey : List Char := "options".toList
def arrayKey : List Char := "array".toList
def tabsKey : List Char := "tabs".toList
def imageSrcKey : List Char := "imageSrc".toList
def arrayTypeStr : List Char := "array".toList
def tabsTypeStr : List Char := "tabs".toList

/-- One entry of the `options` array of a parsed input. -/
structure ParsedOption where
  label : List Char
  name : List Char
  description : Option (List Char)
  imageSrc : Option (List Char)
deriving DecidableEq, Repr

/-- The parsed-input tree built by the Field Extractor (see the module
comment above for the modelled-field policy). -/
inductive ParsedInput : Type where
  | mk :
    (label name type_ : List Char) →
    (description placeholder : Option (List Char)) →
    (rows : Option ℚ) →
    (generateInstruction generateDocStoreDescription hideCodeExecute : Option Bool) →
    (options : List ParsedOption) →
    (array tabs : List ParsedInput) → ParsedInput

def ParsedInput.label : ParsedInput → List Char
  | .mk l _ _ _ _ _ _ _ _ _ _ _ => l

def ParsedInput.name : ParsedInput → List Char
  | .mk _ n _ _ _ _ _ _ _ _ _ _ => n

def ParsedInput.type_ : ParsedInput → List Char
  | .mk _ _ t _ _ _ _ _ _ _ _ _ => t

def ParsedInput.description : ParsedInput → Option (List Char)
  | .mk _ _ _ d _ _ _ _ _ _ _ _ => d

def ParsedInput.placeholder : ParsedInput → Option (List Char)
  | .mk _ _ _ _ p _ _ _ _ _ _ _ => p

def ParsedInput.rows : ParsedInput → Option ℚ
  | .mk _ _ _ _ _ r _ _ _ _ _ _ => r

def ParsedInput.generateInstruction : ParsedInput → Option Bool
  | .mk _ _ _ _ _ _ gi _ _ _ _ _ => gi

def ParsedInput.generateDocStoreDescription : ParsedInput → Option Bool
  | .mk _ _ _ _ _ _ _ gd _ _ _ _ => gd

def ParsedInput.hideCodeExecute : ParsedInput → Option Bool
  | .mk _ _ _ _ _ _ _ _ hc _ _ _ => hc

def ParsedInput.options : ParsedInput → List ParsedOption
  | .mk _ _ _ _ _ _ _ _ _ o _ _ => o

def ParsedInput.array : ParsedInput → List ParsedInput
  | .mk _ _ _ _ _ _ _ _ _ _ a _ => a

def ParsedInput.tabs : ParsedInput → List ParsedInput
  | .mk _ _ _ _ _ _ _ _ _ _ _ t => t

/-- Parse the entries of an `options: [...]` array body. -/
def parseOptionObjects (ac : List Char) : List ParsedOption :=
  ((splitArrayIntoObjects ac).map (fun o =>
    ({ label := (extractStringValue o labelKey).getD []
       name := (extractStringValue o nameKey).getD []
       description := extractStringValue o descriptionKey
       imageSrc := extractStringValue o imageSrcKey } : ParsedOption))).filter
    (fun o => !o.label.isEmpty && !o.name.isEmpty)

/-- `parseInputObject(objContent)` with explicit recursion fuel.  The
source recurses into the spans produced by `splitArrayIntoObjects` on the
extracted array body, each of which is strictly shorter than
`objContent`, so `objContent.length + 1` fuel (supplied by the wrapper
below) always suffices.  Nested calls in the source omit the
`fileContent` argument, so `codeExample` resolution never applies to
them; it is not modelled (see the field policy above). -/
def parseInputObjectFuel : Nat → List Char → Option ParsedInput
  | 0, _ => none
  | fuel + 1, objContent =>
    let label := (extractStringValue objContent labelKey).getD []
    let name := (extractStringValue objContent nameKey).getD []
    let type_ := (extractStringValue objContent typeKey).getD []
    if name.isEmpty || type_.isEmpty then none
    else
      let description := extractStringValue objContent descriptionKey
      let placeholder := extractStringValue objContent placeholderKey
      let rows :=
        match extractNumberValue objContent rowsKey with
        | some v => if v = 0 then none else some v
        | none => none
      let genInstr := extractBooleanValue objContent generateInstructionKey
      let genDoc := extractBooleanValue objContent generateDocStoreKey
      let hideCE := extractBooleanValue objContent hideCodeExecuteKey
      let tabsMatch := findKeyMatch true tabsKey objContent
      let tabs :=
        match tabsMatch, decide (type_ = tabsTypeStr) with
        | some idx, true =>
          match extractArrayContent objContent idx with
          | some (ac, _) =>
            (splitArrayIntoObjects ac).filterMap (parseInputObjectFuel fuel)
          | none => []
        | _, _ => []
      let arrayMatch := findKeyMatch true arrayKey objContent
      let isArray := type_ = arrayTypeStr
      let array :=
        match arrayMatch, decide isArray with
        | some idx, true =>
          match extractArrayContent objContent idx with
          | some (ac, _) =>
            (splitArrayIntoObjects ac).filterMap (parseInputObjectFuel fuel)
          | none => []
        | _, _ => []
      -- the `delete input.rows` … `delete input.hideCodeExecute` block runs
      -- exactly when both the `\barray\s*:\s*\[` match and the type test hold
      let doDelete := arrayMatch.isSome && decide isArray
      let optionsMatch := findKeyMatch false optionsKey objContent
      let options :=
        match optionsMatch, decide (¬ isArray ∧ type_ ≠ tabsTypeStr) with
        | some idx, true =>
          match extractArrayContent objContent idx with
          | some (ac, _) => parseOptionObjects ac
          | none => []
        | _, _ => []
      some (ParsedInput.mk label name type_
        description
        (if doDelete then none else placeholder)
        (if doDelete then none else rows)
        (if doDelete then none else genInstr)
        (if doDelete then none else genDoc)
        (if doDelete then none else hideCE)
        options array tabs)

/-- `parseInputObject(objContent)`. -/
def parseInputObject (objContent : List Char) : Option ParsedInput :=
  parseInputObjectFuel (objContent.length + 1) objContent

/-! ## Hierarchical Normalizer / Store Writer: `insertInputs`

The relational store is modelled by the columns the claims are about:
`node_inputs(id, parent_id, input_name, input_type, sort_order)` (the
`id` column is the SQLite rowid read back via `last_insert_rowid()`
immediately after each insert, modelled as a sequential counter) and
`input_options(input_id, option_name, sort_order)`.  The remaining
columns are each a direct projection of one field of the inserted
`ParsedInput`/option and carry no claim content. -/

structure InputRow where
  id : Nat
  parent_id : Option Nat
  input_name : List Char
  input_type : List Char
  sort_order : Nat
deriving DecidableEq, Repr

structure OptionRow where
  input_id : Nat
  option_name : List Char
  sort_order : Nat
deriving DecidableEq, Repr

structure InputStore where
  nextId : Nat
  inputRows : List InputRow
  optionRows : List OptionRow
deriving DecidableEq, Repr

/-- The `options` insertion loop inside `insertInputs`. -/
def insertOptionRows (opts : List ParsedOption) (inputId sort : Nat)
    (st : InputStore) : InputStore :=
  match opts with
  | [] => st
  | opt :: rest =>
    insertOptionRows rest inputId (sort + 1)
      { st with optionRows := st.optionRows ++ [⟨inputId, opt.name, sort⟩] }

mutual

/-- `insertInputs(inputs, parentId, sortStart)`: insert each input with
the current sort key, then the rest with the next sort key. -/
def insertInputs : List ParsedInput → Option Nat → Nat → InputStore → InputStore
  | [], _, _, st => st
  | inp :: rest, parentId, sortOrder, st =>
    insertInputs rest parentId (sortOrder + 1)
      (insertInputOne inp parentId sortOrder st)

/-- The loop body of `insertInputs` for one input: insert its row, read
back the generated id, then insert its options, its `array` children and
its `tabs` children with the fresh id as parent and the sibling sort key
restarted at zero. -/
def insertInputOne : ParsedInput → Option Nat → Nat → InputStore → InputStore
  | ParsedInput.mk _lab nm ty _de _ph _rws _gi _gd _hc opts arr tbs,
      parentId, sortOrder, st =>
    let inputId := st.nextId
    let st1 : InputStore :=
      ⟨st.nextId + 1,
       st.inputRows ++ [⟨inputId, parentId, nm, ty, sortOrder⟩],
       st.optionRows⟩
    let st2 := insertOptionRows opts inputId 0 st1
    let st3 := insertInputs arr (some inputId) 0 st2
    let st4 := insertInputs tbs (some inputId) 0 st3
    st4

end

/-- The number of `ParsedInput` nodes in a forest (an induction measure
for the writer proofs below; never evaluated). -/
def piSizeL : List ParsedInput → Nat
  | [] => 0
  | ParsedInput.mk _ _ _ _ _ _ _ _ _ _ arr tbs :: rest =>
    1 + piSizeL arr + piSizeL tbs + piSizeL rest
termination_by l => sizeOf l
decreasing_by
  all_goals simp_wf
  all_goals omega

/-! ## Type-Compatibility Resolver

`TYPE_HIERARCHY` is the hand-maintained source table verbatim: each
concrete type name maps to its ordered ancestor chain (including
itself). -/

def TYPE_HIERARCHY : List (String × List String) := [
  ( "ChatOpenAI", [ "ChatOpenAI", "BaseChatModel", "BaseLanguageModel", "Runnable"]),
  ( "ChatAnthropic", [ "ChatAnthropic", "BaseChatModel", "BaseLanguageModel", "Runnable"]),
  ( "AzureChatOpenAI", [ "AzureChatOpenAI", "BaseChatModel", "BaseLanguageModel", "Runnable"]),
  ( "ChatGoogleGenerativeAI", [ "ChatGoogleGenerativeAI", "BaseChatModel", "BaseLanguageModel", "Runnable"]),
  ( "ChatOllama", [ "ChatOllama", "BaseChatModel", "BaseLanguageModel", "Runnable"]),
  ( "ChatMistralAI", [ "ChatMistralAI", "BaseChatModel", "BaseLanguageModel", "Runnable"]),
  ( "ChatTogetherAI", [ "ChatTogetherAI", "BaseChatModel", "BaseLanguageModel", "Runnable"]),
  ( "ChatGroq", [ "ChatGroq", "BaseChatModel", "BaseLanguageModel", "Runnable"]),
  ( "ChatCohere", [ "ChatCohere", "BaseChatModel", "BaseLanguageModel", "Runnable"]),
  ( "ChatHuggingFace", [ "ChatHuggingFace", "BaseChatModel", "BaseLanguageModel", "Runnable"]),
  ( "AwsChatBedrock", [ "AwsChatBedrock", "BaseChatModel", "BaseLanguageModel", "Runnable"]),
  ( "ChatLocalAI", [ "ChatLocalAI", "BaseChatModel", "BaseLanguageModel", "Runnable"]),
  ( "OpenAI", [ "OpenAI", "BaseLLM", "BaseLanguageModel", "Runnable"]),
  ( "AzureOpenAI", [ "AzureOpenAI", "BaseLLM", "BaseLanguageModel", "Runnable"]),
  ( "Ollama", [ "Ollama", "BaseLLM", "BaseLanguageModel", "Runnable"]),
  ( "Replicate", [ "Replicate", "BaseLLM", "BaseLanguageModel", "Runnable"]),
  ( "BufferMemory", [ "BufferMemory", "BaseChatMemory", "BaseMemory"]),
  ( "BufferWindowMemory", [ "BufferWindowMemory", "BaseChatMemory", "BaseMemory"]),
  ( "ConversationSummaryMemory", [ "ConversationSummaryMemory", "BaseChatMemory", "BaseMemory"]),
  ( "ConversationSummaryBufferMemory", [ "ConversationSummaryBufferMemory", "BaseChatMemory", "BaseMemory"]),
  ( "ZepMemory", [ "ZepMemory", "BaseChatMemory", "BaseMemory"]),
  ( "RedisBackedChatMemory", [ "RedisBackedChatMemory", "BaseChatMemory", "BaseMemory"]),
  ( "DynamoDBChatMemory", [ "DynamoDBChatMemory", "BaseChatMemory", "BaseMemory"]),
  ( "MotorheadMemory", [ "MotorheadMemory", "BaseChatMemory", "BaseMemory"]),
  ( "UpstashRedisBackedChatMemory", [ "UpstashRedisBackedChatMemory", "BaseChatMemory", "BaseMemory"]),
  ( "MongoDBChatMemory", [ "MongoDBChatMemory", "BaseChatMemory", "BaseMemory"]),
  ( "OpenAIEmbeddings", [ "OpenAIEmbeddings", "Embeddings"]),
  ( "AzureOpenAIEmbeddings", [ "AzureOpenAIEmbeddings", "Embeddings"]),
  ( "CohereEmbeddings", [ "CohereEmbeddings", "Embeddings"]),
  ( "GoogleGenerativeAIEmbeddings", [ "GoogleGenerativeAIEmbeddings", "Embeddings"]),
  ( "HuggingFaceInferenceEmbeddings", [ "HuggingFaceInferenceEmbeddings", "Embeddings"]),
  ( "OllamaEmbeddings", [ "OllamaEmbeddings", "Embeddings"]),
  ( "VoyageAIEmbeddings", [ "VoyageAIEmbeddings", "Embeddings"]),
  ( "MistralAIEmbeddings", [ "MistralAIEmbeddings", "Embeddings"]),
  ( "TogetherAIEmbeddings", [ "TogetherAIEmbeddings", "Embeddings"]),
  ( "Pinecone", [ "Pinecone", "VectorStore", "VectorStoreRetriever", "BaseRetriever"]),
  ( "Chroma", [ "Chroma", "VectorStore", "VectorStoreRetriever", "BaseRetriever"]),
  ( "Qdrant", [ "Qdrant", "VectorStore", "VectorStoreRetriever", "BaseRetriever"]),
  ( "Milvus", [ "Milvus", "VectorStore", "VectorStoreRetriever", "BaseRetriever"]),
  ( "Weaviate", [ "Weaviate", "VectorStore", "VectorStoreRetriever", "BaseRetriever"]),
  ( "Supabase", [ "Supabase", "VectorStore", "VectorStoreRetriever", "BaseRetriever"]),
  ( "Postgres", [ "Postgres", "VectorStore", "VectorStoreRetriever", "BaseRetriever"]),
  ( "Redis", [ "Redis", "VectorStore", "VectorStoreRetriever", "BaseRetriever"]),
  ( "Faiss", [ "Faiss", "VectorStore", "VectorStoreRetriever", "BaseRetriever"]),
  ( "InMemoryVectorStore", [ "InMemoryVectorStore", "VectorStore", "VectorStoreRetriever", "BaseRetriever"]),
  ( "MongoDBAtlas", [ "MongoDBAtlas", "VectorStore", "VectorStoreRetriever", "BaseRetriever"]),
  ( "Elasticsearch", [ "Elasticsearch", "VectorStore", "VectorStoreRetriever", "BaseRetriever"]),
  ( "OpenSearch", [ "OpenSearch", "VectorStore", "VectorStoreRetriever", "BaseRetriever"]),
  ( "Upstash", [ "Upstash", "VectorStore", "VectorStoreRetriever", "BaseRetriever"]),
  ( "Vectara", [ "Vectara", "VectorStore", "VectorStoreRetriever", "BaseRetriever"]),
  ( "SingleStore", [ "SingleStore", "VectorStore", "VectorStoreRetriever", "BaseRetriever"]),
  ( "PdfLoader", [ "PdfLoader", "Document"]),
  ( "TextLoader", [ "TextLoader", "Document"]),
  ( "JsonLoader", [ "JsonLoader", "Document"]),
  ( "CsvLoader", [ "CsvLoader", "Document"]),
  ( "DocxLoader", [ "DocxLoader", "Document"]),
  ( "CheerioWebScraper", [ "CheerioWebScraper", "Document"]),
  ( "PlaywrightWebScraper", [ "PlaywrightWebScraper", "Document"]),
  ( "PuppeteerWebScraper", [ "PuppeteerWebScraper", "Document"]),
  ( "GithubRepoLoader", [ "GithubRepoLoader", "Document"]),
  ( "NotionLoader", [ "NotionLoader", "Document"]),
  ( "ConfluenceLoader", [ "ConfluenceLoader", "Document"]),
  ( "S3Loader", [ "S3Loader", "Document"]),
  ( "FireCrawlLoader", [ "FireCrawlLoader", "Document"]),
  ( "RecursiveCharacterTextSplitter", [ "RecursiveCharacterTextSplitter", "TextSplitter"]),
  ( "CharacterTextSplitter", [ "CharacterTextSplitter", "TextSplitter"]),
  ( "TokenTextSplitter", [ "TokenTextSplitter", "TextSplitter"]),
  ( "MarkdownTextSplitter", [ "MarkdownTextSplitter", "TextSplitter"]),
  ( "HtmlToMarkdownTextSplitter", [ "HtmlToMarkdownTextSplitter", "TextSplitter"]),
  ( "CodeTextSplitter", [ "CodeTextSplitter", "TextSplitter"]),
  ( "Calculator", [ "Calculator", "Tool", "StructuredTool", "BaseTool"]),
  ( "GoogleSearchAPI", [ "GoogleSearchAPI", "Tool", "StructuredTool", "BaseTool"]),
  ( "SerpAPI", [ "SerpAPI", "Tool", "StructuredTool", "BaseTool"]),
  ( "BraveSearchAPI", [ "BraveSearchAPI", "Tool", "StructuredTool", "BaseTool"]),
  ( "RequestsGet", [ "RequestsGet", "Tool", "StructuredTool", "BaseTool"]),
  ( "RequestsPost", [ "RequestsPost", "Tool", "StructuredTool", "BaseTool"]),
  ( "Retriever", [ "Retriever", "Tool", "StructuredTool", "BaseTool"]),
  ( "ChainTool", [ "ChainTool", "Tool", "StructuredTool", "BaseTool"]),
  ( "CustomTool", [ "CustomTool", "Tool", "StructuredTool", "BaseTool"]),
  ( "OpenAPIToolkit", [ "OpenAPIToolkit", "Tool", "StructuredTool", "BaseTool"]),
  ( "ReadFile", [ "ReadFile", "Tool", "StructuredTool", "BaseTool"]),
  ( "WriteFile", [ "WriteFile", "Tool", "StructuredTool", "BaseTool"]),
  ( "ConversationChain", [ "ConversationChain", "BaseChain", "Runnable"]),
  ( "LLMChain", [ "LLMChain", "BaseChain", "Runnable"]),
  ( "ConversationalRetrievalQAChain", [ "ConversationalRetrievalQAChain", "BaseChain", "Runnable"]),
  ( "RetrievalQAChain", [ "RetrievalQAChain", "BaseChain", "Runnable"]),
  ( "MultiPromptChain", [ "MultiPromptChain", "BaseChain", "Runnable"]),
  ( "VectorDBQAChain", [ "VectorDBQAChain", "BaseChain", "Runnable"]),
  ( "SqlDatabaseChain", [ "SqlDatabaseChain", "BaseChain", "Runnable"]),
  ( "APIChain", [ "APIChain", "BaseChain", "Runnable"]),
  ( "OpenAIFunctionsAgent", [ "OpenAIFunctionsAgent", "AgentExecutor", "BaseChain", "Runnable"]),
  ( "ConversationalAgent", [ "ConversationalAgent", "AgentExecutor", "BaseChain", "Runnable"]),
  ( "MRKLAgent", [ "MRKLAgent", "AgentExecutor", "BaseChain", "Runnable"]),
  ( "OpenAIAssistant", [ "OpenAIAssistant", "AgentExecutor", "BaseChain", "Runnable"]),
  ( "ToolAgent", [ "ToolAgent", "AgentExecutor", "BaseChain", "Runnable"]),
  ( "CSVAgent", [ "CSVAgent", "AgentExecutor", "BaseChain", "Runnable"]),
  ( "AutoGPT", [ "AutoGPT", "AgentExecutor", "BaseChain", "Runnable"]),
  ( "BabyAGI", [ "BabyAGI", "AgentExecutor", "BaseChain", "Runnable"]),
  ( "Agent", [ "Agent"]),
  ( "LLMNode", [ "LLMNode"]),
  ( "Condition", [ "Condition"]),
  ( "Start", [ "Start"]),
  ( "End", [ "End"]),
  ( "Loop", [ "Loop"]),
  ( "ConditionAgent", [ "ConditionAgent"]),
  ( "CustomFunction", [ "CustomFunction"]),
  ( "IterationAgent", [ "IterationAgent"]),
  ( "ExecuteFlow", [ "ExecuteFlow"]),
  ( "HumanInput", [ "HumanInput"]),
  ( "PromptTemplate", [ "PromptTemplate", "BasePromptTemplate"]),
  ( "ChatPromptTemplate", [ "ChatPromptTemplate", "BasePromptTemplate"]),
  ( "FewShotPromptTemplate", [ "FewShotPromptTemplate", "BasePromptTemplate"]),
  ( "StructuredOutputParser", [ "StructuredOutputParser", "BaseOutputParser"]),
  ( "CustomListOutputParser", [ "CustomListOutputParser", "BaseOutputParser"]),
  ( "CSVOutputParser", [ "CSVOutputParser", "BaseOutputParser"]),
  ( "OpenAIModerationChain", [ "OpenAIModerationChain", "Moderation"]),
  ( "SimplePromptModeration", [ "SimplePromptModeration", "Moderation"]),
  ( "InMemoryCache", [ "InMemoryCache", "BaseCache"]),
  ( "RedisCache", [ "RedisCache", "BaseCache"]),
  ( "MomentoCache", [ "MomentoCache", "BaseCache"]),
  ( "UpstashRedisCache", [ "UpstashRedisCache", "BaseCache"])]

/-- Property lookup on the hierarchy object (keys are unique in the
table, so first-match association lookup coincides with JS object
access). -/
def hierarchyLookup (t : String) : Option (List String) :=
  (TYPE_HIERARCHY.find? (fun p => p.1 = t)).map (fun p => p.2)

/-- `isTypeCompatible(sourceType, targetInputType)`. -/
def isTypeCompatible (sourceType targetInputType : String) : Bool :=
  sourceType = targetInputType ||
    (match hierarchyLookup sourceType with
     | some h => h.contains targetInputType
     | none => false)

/-- `[...new Set(l)]`: deduplication keeping the first occurrence of each
element, in order. -/
def setDedup : List String → List String
  | [] => []
  | a :: rest => a :: (setDedup rest).filter (fun b => b ≠ a)

/-- `getCompatibleOutputTypes(inputType)`: the input type itself plus
every table key whose chain contains it, deduplicated. -/
def getCompatibleOutputTypes (inputType : String) : List String :=
  setDedup (inputType :: TYPE_HIERARCHY.filterMap
    (fun p => if p.2.contains inputType then some p.1 else none))

/-- `getAcceptingInputTypes(outputType)`: the chain when the type is in
the table, else the singleton of the type itself. -/
def getAcceptingInputTypes (outputType : String) : List String :=
  match hierarchyLookup outputType with
  | some h => h
  | none => [outputType]

/-! ## Flow Validator: `validateFlow`

The node store row returned by
`SELECT name, label, base_classes, is_agentflow FROM nodes WHERE name = ?`
is modelled by `DbNode`; the JSON-encoded `base_classes` column is
modelled directly as the decoded string list, and the 0/1 integer
`is_agentflow` column as a `Nat` (JS truthiness: nonzero).  Candidate
nodes and edges carry exactly the properties `validateFlow` reads, with
`Option` for possibly-absent ones and JS string truthiness (empty string
falsy) applied via `jsTruthy`. -/

structure DbNode where
  name : String
  label : String
  base_classes : List String
  is_agentflow : Nat
deriving DecidableEq, Repr

structure CandidateNode where
  id : String
  dataName : Option String
  type_ : Option String
  name : Option String
deriving DecidableEq, Repr

structure CandidateEdge where
  source : String
  target : String
  sourceHandle : Option String
  targetHandle : Option String
  type_ : Option String
deriving DecidableEq, Repr

def lookupNode (store : List DbNode) (nm : String) : Option DbNode :=
  store.find? (fun d => d.name = nm)

/-- A JS string-or-undefined as a truthy value (`undefined` and `""` are
falsy). -/
def jsTruthy (o : Option String) : Option String :=
  match o with
  | some s => if s = "" then none else some s
  | none => none

/-- `node.data?.name || node.type || node.name` as a truthy value. -/
def resolvedName (n : CandidateNode) : Option String :=
  (jsTruthy n.dataName).orElse
    (fun _ => (jsTruthy n.type_).orElse (fun _ => jsTruthy n.name))

def noNameMsg (nid : String) : String :=
  "Node " ++ nid ++ " has no name/type specified"

def notExistMsg (nm : String) : String :=
  "Node type \"" ++ nm ++ "\" does not exist in Flowise"

def endpointWarnMsg : String :=
  "Flow has no endpoint node (Chain or Agent) - it may not be executable"

def srcMissingMsg (s : String) : String :=
  "Edge references non-existent source node: " ++ s

def tgtMissingMsg (t : String) : String :=
  "Edge references non-existent target node: " ++ t

def incompatMsg (sl st tl tt : String) : String :=
  "Incompatible edge: " ++ sl ++ " (outputs " ++ st ++
    ") cannot connect to " ++ tl ++ " input (expects " ++ tt ++ ")"

/-- The agentflow/chatflow classification-mismatch warning text. -/
def mixedMsg (sl : String) (sa : Nat) (tl : String) (ta : Nat) : String :=
  "Mixed flow types: " ++ sl ++ " is " ++
    (if sa ≠ 0 then "agentflow" else "chatflow") ++ " but " ++ tl ++ " is " ++
    (if ta ≠ 0 then "agentflow" else "chatflow")

def agentEdgeWarnMsg (src : String) : String :=
  "Edge from agentflow node " ++ src ++ " should use type: \"agentFlow\""

def chatEdgeWarnMsg (t : Option String) : String :=
  "Edge in chatflow should use type: \"buttonedge\", got: \"" ++
    (match t with | some s => s | none => "undefined") ++ "\""

/-- JS `s.split(sep)` for a nonempty string separator, on character
lists, with structural fuel (`length + 1` always suffices: every step
consumes at least one character). -/
def splitOnF (sep : List Char) : Nat → List Char → List Char →
    List (List Char)
  | 0, _, acc => [acc.reverse]
  | _ + 1, [], acc => [acc.reverse]
  | fuel + 1, c :: rest, acc =>
    match matchLit sep (c :: rest) with
    | some rest2 => acc.reverse :: splitOnF sep fuel rest2 []
    | none => splitOnF sep fuel rest (c :: acc)

/-- JS `s.split(sep)` (leftmost, non-overlapping occurrences). -/
def splitOnL (sep cs : List Char) : List (List Char) :=
  splitOnF sep (cs.length + 1) cs []

/-- JS `s.toLowerCase()` on the character sequences that occur here. -/
def toLowerL (cs : List Char) : List Char := cs.map Char.toLower

/-- `hay.includes(needle)`. -/
def hasSubstr (hay needle : List Char) : Bool :=
  (List.range (hay.length + 1)).any (fun i => needle.isPrefixOf (hay.drop i))

def chainMarker : List Char := "chain".toList
def agentMarker : List Char := "agent".toList

def nameHasEndpointMarker (nm : String) : Bool :=
  hasSubstr (toLowerL nm.data) chainMarker ||
  hasSubstr (toLowerL nm.data) agentMarker

/-- `nodes.some(n => name?.toLowerCase().includes('chain') || ... )`. -/
def hasEndpointNode (nodes : List CandidateNode) : Bool :=
  nodes.any (fun n =>
    match resolvedName n with
    | some nm => nameHasEndpointMarker nm
    | none => false)

/-- Step 1 hard errors: a node without any name, or a node whose
Definition name is not in the store. -/
def nodeErrors (store : List DbNode) (nodes : List CandidateNode) : List String :=
  nodes.flatMap (fun n =>
    match resolvedName n with
    | none => [noNameMsg n.id]
    | some nm =>
      match lookupNode store nm with
      | none => [notExistMsg nm]
      | some _ => [])

/-- The `nodeIds` set: ids of every candidate node that carried a name
(added whether or not its Definition lookup succeeded). -/
def namedIds (nodes : List CandidateNode) : List String :=
  nodes.filterMap (fun n => (resolvedName n).map (fun _ => n.id))

/-- The `nodeMap` assignments: one entry per node whose Definition lookup
succeeded, in node order. -/
def resolvedEntries (store : List DbNode) (nodes : List CandidateNode) :
    List (CandidateNode × DbNode) :=
  nodes.filterMap (fun n =>
    match resolvedName n with
    | some nm => (lookupNode store nm).map (fun d => (n, d))
    | none => none)

/-- `nodeMap[id]`: the last assignment wins. -/
def lookupEntry (store : List DbNode) (nodes : List CandidateNode)
    (nid : String) : Option (CandidateNode × DbNode) :=
  (resolvedEntries store nodes).reverse.find? (fun p => p.1.id = nid)

def srcHandleSep : String := "-output-"
def tgtHandleSep : String := "-input-"
def dashSep : String := "-"
def agentFlowTag : String := "agentFlow"
def buttonedgeTag : String := "buttonedge"

/-- The structured-handle type check of `validateFlow` (step 3): runs only
when both handles are truthy and each splits in exactly two around its
marker; the rightmost dash-separated token on each side is the claimed
type; on primary incompatibility, the source node's whole base-class chain
is retried before a hard error is reported. -/
def edgeHandleTypeErrors (sd td : DbNode) (srcFallback tgtFallback : String)
    (e : CandidateEdge) : List String :=
  match jsTruthy e.sourceHandle, jsTruthy e.targetHandle with
  | some sh, some th =>
    match splitOnL srcHandleSep.data sh.data, splitOnL tgtHandleSep.data th.data with
    | [_, sOut], [_, tIn] =>
      let sourceType := String.mk (((splitOnL dashSep.data sOut).getLast?).getD [])
      let targetType := String.mk (((splitOnL dashSep.data tIn).getLast?).getD [])
      if sourceType ≠ "" ∧ targetType ≠ "" then
        if ¬ (isTypeCompatible sourceType targetType = true) then
          if ¬ (sd.base_classes.any (fun bc => isTypeCompatible bc targetType) = true) then
            [incompatMsg (if sd.label = "" then srcFallback else sd.label)
              sourceType
              (if td.label = "" then tgtFallback else td.label) targetType]
          else []
        else []
      else []
    | _, _ => []
  | _, _ => []

/-- Steps 4–5 soft warnings for one edge: classification mismatch, and
edge-type tag consistency. -/
def edgeClassWarnings (sd td : DbNode) (e : CandidateEdge) : List String :=
  (if sd.is_agentflow ≠ td.is_agentflow then
    [mixedMsg sd.label sd.is_agentflow td.label td.is_agentflow] else []) ++
  (if sd.is_agentflow ≠ 0 ∧ e.type_ ≠ some agentFlowTag then
    [agentEdgeWarnMsg e.source] else []) ++
  (if sd.is_agentflow = 0 ∧ td.is_agentflow = 0 ∧ e.type_ ≠ some buttonedgeTag then
    [chatEdgeWarnMsg e.type_] else [])

/-- All hard errors and warnings produced for one edge, in push order.
A missing source endpoint short-circuits the target check (`continue`);
an edge whose endpoints are listed but not both resolved is skipped. -/
def edgeIssues (store : List DbNode) (nodes : List CandidateNode)
    (e : CandidateEdge) : List String × List String :=
  if ¬ ((namedIds nodes).contains e.source = true) then
    ([srcMissingMsg e.source], [])
  else if ¬ ((namedIds nodes).contains e.target = true) then
    ([tgtMissingMsg e.target], [])
  else
    match lookupEntry store nodes e.source, lookupEntry store nodes e.target with
    | some (_, sd), some (_, td) =>
      (edgeHandleTypeErrors sd td e.source e.target e, edgeClassWarnings sd td e)
    | _, _ => ([], [])

structure ValidationResult where
  valid : Bool
  errors : List String
  warnings : List String
  nodeCount : Nat
  edgeCount : Nat
deriving DecidableEq, Repr

/-- `validateFlow(nodes, edges)` against the store. -/
def validateFlow (store : List DbNode) (nodes : List CandidateNode)
    (edges : List CandidateEdge) : ValidationResult :=
  let errs1 := nodeErrors store nodes
  let ws1 := if 0 < nodes.length ∧ ¬ (hasEndpointNode nodes = true) then
    [endpointWarnMsg] else []
  let per := edges.map (edgeIssues store nodes)
  let errs := errs1 ++ per.flatMap Prod.fst
  let ws := ws1 ++ per.flatMap Prod.snd
  ⟨errs.isEmpty, errs, ws, nodes.length, edges.length⟩

/-! ## Spec-side grammar: well-formed bracketed text

These inductives render the spec's "well-formed nested bracket text
containing quoted strings with escaped delimiters" (the input class of
the Structural Scanner's correctness property) and the input class of the
Literal Segmenter's property. -/

/-- A well-formed quoted-span body for quote character `q`: any sequence
of characters in which `q` occurs only right after the escape character.
An escape consumes the following character (which may be `q`, a bracket,
or anything else). -/
inductive QBody (q : Char) : List Char → Prop where
  | nil : QBody q []
  | esc (ch : Char) (s : List Char) : QBody q s → QBody q (escCh :: ch :: s)
  | chr (ch : Char) (s : List Char) : ch ≠ q → ch ≠ escCh → QBody q s →
      QBody q (ch :: s)

/-- Well-formed bracket text for the pair `o`/`c`: a sequence of ordinary
characters, complete quoted spans (whose bodies may contain brackets),
and properly nested `o … c` groups. -/
inductive BalancedText (o c : Char) : List Char → Prop where
  | nil : BalancedText o c []
  | plain (ch : Char) (s : List Char) : isQuoteCh ch = false → ch ≠ o → ch ≠ c →
      BalancedText o c s → BalancedText o c (ch :: s)
  | quoted (q : Char) (qb s : List Char) : isQuoteCh q = true → QBody q qb →
      BalancedText o c s → BalancedText o c (q :: (qb ++ q :: s))
  | nested (inner s : List Char) : BalancedText o c inner → BalancedText o c s →
      BalancedText o c (o :: (inner ++ c :: s))

/-- An array-literal body as a sequence of top-level object literals
separated by filler free of opening braces, paired with the list of the
object-literal spans it contains (each span runs from its opening brace
to its matching closing brace). -/
inductive ObjSeq : List Char → List (List Char) → Prop where
  | last (fill : List Char) : obrace ∉ fill → ObjSeq fill []
  | cons (fill body s : List Char) (objs : List (List Char)) :
      obrace ∉ fill → BalancedText obrace cbrace body → ObjSeq s objs →
      ObjSeq (fill ++ obrace :: (body ++ cbrace :: s))
        ((obrace :: (body ++ [cbrace])) :: objs)

/-- Filler containing no top-level object literal, as the claim words it
("arbitrary non-object filler"): ordinary non-`{` characters and complete
quoted spans, which may contain brace characters. -/
inductive FillQuoted : List Char → Prop where
  | nil : FillQuoted []
  | chr (ch : Char) (s : List Char) : ch ≠ obrace → FillQuoted s →
      FillQuoted (ch :: s)
  | quoted (q : Char) (qb s : List Char) : isQuoteCh q = true → QBody q qb →
      FillQuoted s → FillQuoted (q :: (qb ++ q :: s))

/-- The claim's input class for the Literal Segmenter: top-level object
literals separated by arbitrary non-object filler (`FillQuoted`). -/
inductive ObjSeqQ : List Char → List (List Char) → Prop where
  | last (fill : List Char) : FillQuoted fill → ObjSeqQ fill []
  | cons (fill body s : List Char) (objs : List (List Char)) :
      FillQuoted fill → BalancedText obrace cbrace body → ObjSeqQ s objs →
      ObjSeqQ (fill ++ obrace :: (body ++ cbrace :: s))
        ((obrace :: (body ++ [cbrace])) :: objs)

/-! ## Concrete inputs used by witnesses and counterexamples -/

/-- A single-quoted literal: `'s'`. -/
def sqt (s : String) : List Char := quoteS :: s.toList ++ [quoteS]

/-- The assembled Definition of the round-trip claim: 2 top-level
InputFields, the second of structural (array) kind with 3 children.
(The text-to-tree assembly itself is the subject of the Segmenter and
Field-Extractor claims; the store-writer claim starts from the assembled
tree, which is what `insertInputs` receives in the source.) -/
def c3Inputs : List ParsedInput :=
  [ParsedInput.mk (r"A".toList) (r"f1".toList) (r"string".toList)
     none none none none none none [] [] [],
   ParsedInput.mk (r"B".toList) (r"f2".toList) (r"array".toList)
     none none none none none none []
     [ParsedInput.mk [] (r"c1".toList) (r"string".toList)
        none none none none none none [] [] [],
      ParsedInput.mk [] (r"c2".toList) (r"number".toList)
        none none none none none none [] [] [],
      ParsedInput.mk [] (r"c3".toList) (r"boolean".toList)
        none none none none none none [] [] []]
     []]

/-- The store state after `insertInputs(inputs, null, 0)` on a fresh
store. -/
def c3St : InputStore := insertInputs c3Inputs none 0 ⟨0, [], []⟩

/-- `{ name: 'x', type: 'array', rows: 4 }` — array type discriminator
but no `array:` key. -/
def c4Bad : List Char :=
  [obrace] ++ " name: ".toList ++ sqt (r"x") ++ ", type: ".toList ++
    sqt (r"array") ++ ", rows: 4 ".toList ++ [cbrace]

/-- The claim's literal
`{ name: 'x', type: 'array', array: [ { name:'c1', type:'string', rows: 4 } ] }`. -/
def c4Good : List Char :=
  [obrace] ++ " name: ".toList ++ sqt (r"x") ++ ", type: ".toList ++
    sqt (r"array") ++ ", array: [ ".toList ++
    ([obrace] ++ " name: ".toList ++ sqt (r"c1") ++ ", type: ".toList ++
      sqt (r"string") ++ ", rows: 4 ".toList ++ [cbrace]) ++
    " ] ".toList ++ [cbrace]

/-- `'{',{}` — one top-level object literal preceded by non-object filler
whose quoted span contains an opening brace. -/
def c2Ex : List Char := [quoteS, obrace, quoteS, ','] ++ [obrace, cbrace]

/-- The single object-literal span `{}` contained in `c2Ex`. -/
def c2ExObj : List Char := [obrace, cbrace]

def missingName : String := "Missing"
def missing2Name : String := "Missing2"

/-- Candidate node `{id:"n1", type:"Missing"}`. -/
def c8Node : CandidateNode := ⟨"n1", none, some missingName, none⟩

def c5Node2 : CandidateNode := ⟨"n2", none, some missing2Name, none⟩

/-- Edge `n1 → n2` with no handles. -/
def c5Edge : CandidateEdge := ⟨"n1", "n2", none, none, none⟩

/-! ## Scanner lemmas -/

/-- Whatever the fuel, once the loop condition fails the loop exits with
the `depth`-determined result. -/
theorem fmbLoopF_exit (content : List Char) (o c : Char) (f pos d : Nat)
    (h : ¬ (pos < content.length ∧ 0 < d)) :
    fmbLoopF content o c f pos d = if d = 0 then (pos : Int) - 1 else -1 := by
  cases f with
  | zero => rfl
  | succ n =>
    rw [fmbLoopF, dif_neg h]

theorem fmbLoopF_succ_quote (content : List Char) (o c : Char) (f pos d : Nat)
    (hpos : pos < content.length) (hd : 0 < d)
    (hq : isQuoteCh (content.get ⟨pos, hpos⟩) = true) :
    fmbLoopF content o c (f + 1) pos d =
      fmbLoopF content o c f
        (skipStringPos content (content.get ⟨pos, hpos⟩) (pos + 1) + 1) d := by
  rw [fmbLoopF, dif_pos ⟨hpos, hd⟩]
  simp only [hq, if_true]

theorem fmbLoopF_succ_open (content : List Char) (o c : Char) (f pos d : Nat)
    (hpos : pos < content.length) (hd : 0 < d)
    (hq : isQuoteCh (content.get ⟨pos, hpos⟩) = false)
    (heq : content.get ⟨pos, hpos⟩ = o) :
    fmbLoopF content o c (f + 1) pos d =
      fmbLoopF content o c f (pos + 1) (d + 1) := by
  rw [fmbLoopF, dif_pos ⟨hpos, hd⟩]
  rw [heq] at hq
  simp only [heq, hq, Bool.false_eq_true, if_false, if_pos rfl]
  simp

theorem fmbLoopF_succ_close (content : List Char) (o c : Char) (f pos d : Nat)
    (hpos : pos < content.length) (hd : 0 < d)
    (hq : isQuoteCh (content.get ⟨pos, hpos⟩) = false)
    (hno : content.get ⟨pos, hpos⟩ ≠ o)
    (heq : content.get ⟨pos, hpos⟩ = c) :
    fmbLoopF content o c (f + 1) pos d =
      fmbLoopF content o c f (pos + 1) (d - 1) := by
  rw [fmbLoopF, dif_pos ⟨hpos, hd⟩]
  rw [heq] at hq hno
  simp only [heq, hq, Bool.false_eq_true, if_false]
  rw [if_neg hno]
  simp

theorem fmbLoopF_succ_other (content : List Char) (o c : Char) (f pos d : Nat)
    (hpos : pos < content.length) (hd : 0 < d)
    (hq : isQuoteCh (content.get ⟨pos, hpos⟩) = false)
    (hno : content.get ⟨pos, hpos⟩ ≠ o)
    (hnc : content.get ⟨pos, hpos⟩ ≠ c) :
    fmbLoopF content o c (f + 1) pos d = fmbLoopF content o c f (pos + 1) d := by
  rw [fmbLoopF, dif_pos ⟨hpos, hd⟩]
  simp only [hq, Bool.false_eq_true, if_false]
  rw [if_neg hno, if_neg hnc]

/-- The loop advances the position at every iteration, so its value does
not depend on the fuel once the fuel is at least
`content.length + 1 - pos`. -/
theorem fmbLoopF_irrel (content : List Char) (o c : Char) :
    ∀ f1 f2 pos d, content.length + 1 - pos ≤ f1 →
      content.length + 1 - pos ≤ f2 →
      fmbLoopF content o c f1 pos d = fmbLoopF content o c f2 pos d := by
  intro f1
  induction f1 with
  | zero =>
    intro f2 pos d h1 h2
    have hg : ¬ (pos < content.length ∧ 0 < d) := by omega
    rw [fmbLoopF_exit _ _ _ 0 _ _ hg, fmbLoopF_exit _ _ _ f2 _ _ hg]
  | succ n ih =>
    intro f2 pos d h1 h2
    by_cases hg : pos < content.length ∧ 0 < d
    · obtain ⟨hpos, hd⟩ := hg
      match f2 with
      | 0 => omega
      | m + 1 =>
        have hskip : pos + 1 ≤ skipStringPos content (content.get ⟨pos, hpos⟩) (pos + 1) := by
          rw [skipStringPos]
          exact Nat.le_add_right _ _
        by_cases hq : isQuoteCh (content.get ⟨pos, hpos⟩) = true
        · rw [fmbLoopF_succ_quote content o c n pos d hpos hd hq,
            fmbLoopF_succ_quote content o c m pos d hpos hd hq]
          exact ih m _ _ (by omega) (by omega)
        · by_cases heqo : content.get ⟨pos, hpos⟩ = o
          · rw [fmbLoopF_succ_open content o c n pos d hpos hd (by simpa using hq) heqo,
              fmbLoopF_succ_open content o c m pos d hpos hd (by simpa using hq) heqo]
            exact ih m _ _ (by omega) (by omega)
          · by_cases heqc : content.get ⟨pos, hpos⟩ = c
            · rw [fmbLoopF_succ_close content o c n pos d hpos hd (by simpa using hq) heqo heqc,
                fmbLoopF_succ_close content o c m pos d hpos hd (by simpa using hq) heqo heqc]
              exact ih m _ _ (by omega) (by omega)
            · rw [fmbLoopF_succ_other content o c n pos d hpos hd (by simpa using hq) heqo heqc,
                fmbLoopF_succ_other content o c m pos d hpos hd (by simpa using hq) heqo heqc]
              exact ih m _ _ (by omega) (by omega)
    · rw [fmbLoopF_exit _ _ _ (n + 1) _ _ hg, fmbLoopF_exit _ _ _ f2 _ _ hg]

theorem fmbLoop_oob (content : List Char) (o c : Char) (pos d : Nat)
    (h : content.length ≤ pos) (hd : 0 < d) :
    fmbLoop content o c pos d = -1 := by
  rw [fmbLoop, fmbLoopF_exit _ _ _ _ _ _ (by omega), if_neg (by omega)]

theorem fmbLoop_done (content : List Char) (o c : Char) (pos : Nat) :
    fmbLoop content o c pos 0 = (pos : Int) - 1 := by
  rw [fmbLoop, fmbLoopF_exit _ _ _ _ _ _ (by omega), if_pos rfl]

theorem fmbLoop_step_quote (content : List Char) (o c : Char) (pos d : Nat)
    (hpos : pos < content.length) (hd : 0 < d)
    (hq : isQuoteCh (content.get ⟨pos, hpos⟩) = true) :
    fmbLoop content o c pos d =
      fmbLoop content o c
        (skipStringPos content (content.get ⟨pos, hpos⟩) (pos + 1) + 1) d := by
  rw [fmbLoop, fmbLoop, fmbLoopF_succ_quote content o c _ pos d hpos hd hq]
  exact fmbLoopF_irrel content o c _ _ _ _ (by omega) (by omega)

theorem fmbLoop_step_open (content : List Char) (o c : Char) (pos d : Nat)
    (hpos : pos < content.length) (hd : 0 < d)
    (hq : isQuoteCh (content.get ⟨pos, hpos⟩) = false)
    (heq : content.get ⟨pos, hpos⟩ = o) :
    fmbLoop content o c pos d = fmbLoop content o c (pos + 1) (d + 1) := by
  rw [fmbLoop, fmbLoop, fmbLoopF_succ_open content o c _ pos d hpos hd hq heq]
  exact fmbLoopF_irrel content o c _ _ _ _ (by omega) (by omega)

theorem fmbLoop_step_close (content : List Char) (o c : Char) (pos d : Nat)
    (hpos : pos < content.length) (hd : 0 < d)
    (hq : isQuoteCh (content.get ⟨pos, hpos⟩) = false)
    (hno : content.get ⟨pos, hpos⟩ ≠ o)
    (heq : content.get ⟨pos, hpos⟩ = c) :
    fmbLoop content o c pos d = fmbLoop content o c (pos + 1) (d - 1) := by
  rw [fmbLoop, fmbLoop, fmbLoopF_succ_close content o c _ pos d hpos hd hq hno heq]
  exact fmbLoopF_irrel content o c _ _ _ _ (by omega) (by omega)

theorem fmbLoop_step_other (content : List Char) (o c : Char) (pos d : Nat)
    (hpos : pos < content.length) (hd : 0 < d)
    (hq : isQuoteCh (content.get ⟨pos, hpos⟩) = false)
    (hno : content.get ⟨pos, hpos⟩ ≠ o)
    (hnc : content.get ⟨pos, hpos⟩ ≠ c) :
    fmbLoop content o c pos d = fmbLoop content o c (pos + 1) d := by
  rw [fmbLoop, fmbLoop, fmbLoopF_succ_other content o c _ pos d hpos hd hq hno hnc]
  exact fmbLoopF_irrel content o c _ _ _ _ (by omega) (by omega)

/-- The character at the junction of an append. -/
theorem getAt_append (pre rest : List Char) (x : Char)
    (h : pre.length < (pre ++ x :: rest).length) :
    (pre ++ x :: rest).get ⟨pre.length, h⟩ = x := by
  simp [List.get_eq_getElem, List.getElem_append_right]

theorem skipStringAux_cons (q ch : Char) (rest : List Char) :
    skipStringAux q (ch :: rest) =
      if ch = q then 0
      else if ch = escCh then 2 + skipStringAux q (rest.drop 1)
      else 1 + skipStringAux q rest := by
  cases rest <;> rfl

theorem skipStringAux_qbody {q : Char} (hq : q ≠ escCh) :
    ∀ {qb : List Char}, QBody q qb → ∀ rest,
      skipStringAux q (qb ++ q :: rest) = qb.length := by
  intro qb h
  induction h with
  | nil =>
    intro rest
    simp [skipStringAux_cons]
  | esc ch s _hs ih =>
    intro rest
    simp only [List.cons_append]
    rw [skipStringAux_cons, if_neg (fun hh => hq hh.symm), if_pos rfl]
    simp only [List.drop_succ_cons, List.drop_zero]
    rw [ih rest]
    simp only [List.length_cons]
    omega
  | chr ch s hne hnesc _hs ih =>
    intro rest
    simp only [List.cons_append]
    rw [skipStringAux_cons, if_neg hne, if_neg hnesc]
    rw [ih rest]
    simp only [List.length_cons]
    omega

theorem skipStringPos_qbody {q : Char} (hq : q ≠ escCh) {qb : List Char}
    (h : QBody q qb) (pre rest : List Char) :
    skipStringPos (pre ++ (qb ++ q :: rest)) q pre.length =
      pre.length + qb.length := by
  rw [skipStringPos, List.drop_left, skipStringAux_qbody hq h]

/-- A quote character is never the escape character. -/
theorem quote_ne_esc {q : Char} (hq : isQuoteCh q = true) : q ≠ escCh := by
  rw [isQuoteCh] at hq
  rcases Bool.or_eq_true_iff.mp hq with hh | hh
  · rcases Bool.or_eq_true_iff.mp hh with h1 | h1 <;>
      · have := of_decide_eq_true h1
        subst this
        decide
  · have := of_decide_eq_true hh
    subst this
    decide

/-! Junction forms of the step lemmas: the scan position sits right at the
boundary of an append. -/

theorem fmbLoop_junction_other (P R : List Char) (o c x : Char) (d : Nat)
    (hd : 0 < d) (hq : isQuoteCh x = false) (hno : x ≠ o) (hnc : x ≠ c) :
    fmbLoop (P ++ x :: R) o c P.length d =
      fmbLoop (P ++ x :: R) o c (P.length + 1) d := by
  have hpos : P.length < (P ++ x :: R).length := by
    simp only [List.length_append, List.length_cons]
    omega
  have hget := getAt_append P R x hpos
  exact fmbLoop_step_other _ _ _ _ _ hpos hd (by rw [hget]; exact hq)
    (by rw [hget]; exact hno) (by rw [hget]; exact hnc)

theorem fmbLoop_junction_open (P R : List Char) (o c : Char) (d : Nat)
    (hd : 0 < d) (ho : isQuoteCh o = false) :
    fmbLoop (P ++ o :: R) o c P.length d =
      fmbLoop (P ++ o :: R) o c (P.length + 1) (d + 1) := by
  have hpos : P.length < (P ++ o :: R).length := by
    simp only [List.length_append, List.length_cons]
    omega
  have hget := getAt_append P R o hpos
  exact fmbLoop_step_open _ _ _ _ _ hpos hd (by rw [hget]; exact ho) hget

theorem fmbLoop_junction_close (P R : List Char) (o c : Char) (d : Nat)
    (hd : 0 < d) (hc : isQuoteCh c = false) (hoc : o ≠ c) :
    fmbLoop (P ++ c :: R) o c P.length d =
      fmbLoop (P ++ c :: R) o c (P.length + 1) (d - 1) := by
  have hpos : P.length < (P ++ c :: R).length := by
    simp only [List.length_append, List.length_cons]
    omega
  have hget := getAt_append P R c hpos
  exact fmbLoop_step_close _ _ _ _ _ hpos hd (by rw [hget]; exact hc)
    (by rw [hget]; exact fun hh => hoc hh.symm) hget

theorem fmbLoop_junction_quote (P R : List Char) (o c q : Char) (d : Nat)
    (hd : 0 < d) (hq : isQuoteCh q = true) :
    fmbLoop (P ++ q :: R) o c P.length d =
      fmbLoop (P ++ q :: R) o c
        (skipStringPos (P ++ q :: R) q (P.length + 1) + 1) d := by
  have hpos : P.length < (P ++ q :: R).length := by
    simp only [List.length_append, List.length_cons]
    omega
  have hget := getAt_append P R q hpos
  have := fmbLoop_step_quote (P ++ q :: R) o c P.length d hpos hd
    (by rw [hget]; exact hq)
  rw [hget] at this
  exact this

/-- Scanning over a well-formed segment advances the position past it and
leaves the depth unchanged. -/
theorem fmbLoop_balanced {o c : Char} (ho : isQuoteCh o = false)
    (hc : isQuoteCh c = false) (hoc : o ≠ c) :
    ∀ {body : List Char}, BalancedText o c body →
    ∀ (pre rest : List Char) (d : Nat), 0 < d →
      fmbLoop (pre ++ body ++ rest) o c pre.length d =
      fmbLoop (pre ++ body ++ rest) o c (pre.length + body.length) d := by
  intro body hb
  induction hb with
  | nil =>
    intro pre rest d _hd
    simp
  | plain ch s hquote hno hnc _hs ih =>
    intro pre rest d hd
    have eC : pre ++ (ch :: s) ++ rest = pre ++ ch :: (s ++ rest) := by simp
    rw [eC, fmbLoop_junction_other pre (s ++ rest) o c ch d hd hquote hno hnc]
    have eC2 : pre ++ ch :: (s ++ rest) = (pre ++ [ch]) ++ s ++ rest := by simp
    have eI : pre.length + 1 = (pre ++ [ch]).length := by simp
    rw [eC2, eI, ih (pre ++ [ch]) rest d hd]
    have eI2 : (pre ++ [ch]).length + s.length = pre.length + (ch :: s).length := by
      simp only [List.length_append, List.length_cons, List.length_nil] <;> omega
    rw [eI2]
  | quoted q qb s hqz hqb _hs ih =>
    intro pre rest d hd
    have eC : pre ++ (q :: (qb ++ q :: s)) ++ rest =
        pre ++ q :: (qb ++ q :: (s ++ rest)) := by simp
    rw [eC, fmbLoop_junction_quote pre (qb ++ q :: (s ++ rest)) o c q d hd hqz]
    have eskip : skipStringPos (pre ++ q :: (qb ++ q :: (s ++ rest))) q
        (pre.length + 1) = pre.length + 1 + qb.length := by
      have eC2 : pre ++ q :: (qb ++ q :: (s ++ rest)) =
          (pre ++ [q]) ++ (qb ++ q :: (s ++ rest)) := by simp
      have eI : pre.length + 1 = (pre ++ [q]).length := by simp
      rw [eC2, eI, skipStringPos_qbody (quote_ne_esc hqz) hqb]
    rw [eskip]
    have eC3 : pre ++ q :: (qb ++ q :: (s ++ rest)) =
        (pre ++ q :: (qb ++ [q])) ++ s ++ rest := by simp
    have eI2 : pre.length + 1 + qb.length + 1 = (pre ++ q :: (qb ++ [q])).length := by
      simp only [List.length_append, List.length_cons, List.length_nil] <;> omega
    rw [eC3, eI2, ih (pre ++ q :: (qb ++ [q])) rest d hd]
    have eI3 : (pre ++ q :: (qb ++ [q])).length + s.length =
        pre.length + (q :: (qb ++ q :: s)).length := by
      simp only [List.length_append, List.length_cons, List.length_nil] <;> omega
    rw [eI3]
  | nested inner s _hi _hs ihi ihs =>
    intro pre rest d hd
    have eC : pre ++ (o :: (inner ++ c :: s)) ++ rest =
        pre ++ o :: (inner ++ c :: (s ++ rest)) := by simp
    rw [eC, fmbLoop_junction_open pre (inner ++ c :: (s ++ rest)) o c d hd ho]
    have eC2 : pre ++ o :: (inner ++ c :: (s ++ rest)) =
        (pre ++ [o]) ++ inner ++ (c :: (s ++ rest)) := by simp
    have eI : pre.length + 1 = (pre ++ [o]).length := by simp
    rw [eC2, eI, ihi (pre ++ [o]) (c :: (s ++ rest)) (d + 1) (by omega)]
    have eC3 : (pre ++ [o]) ++ inner ++ (c :: (s ++ rest)) =
        ((pre ++ [o]) ++ inner) ++ c :: (s ++ rest) := by simp
    have eI2 : (pre ++ [o]).length + inner.length = ((pre ++ [o]) ++ inner).length := by
      simp <;> omega
    rw [eC3, eI2,
      fmbLoop_junction_close ((pre ++ [o]) ++ inner) (s ++ rest) o c (d + 1)
        (by omega) hc hoc]
    have eC4 : ((pre ++ [o]) ++ inner) ++ c :: (s ++ rest) =
        (pre ++ o :: (inner ++ [c])) ++ s ++ rest := by simp
    have eI3 : ((pre ++ [o]) ++ inner).length + 1 =
        (pre ++ o :: (inner ++ [c])).length := by
      simp only [List.length_append, List.length_cons, List.length_nil] <;> omega
    have eD : d + 1 - 1 = d := by omega
    rw [eC4, eI3, eD, ihs (pre ++ o :: (inner ++ [c])) rest d hd]
    have eI4 : (pre ++ o :: (inner ++ [c])).length + s.length =
        pre.length + (o :: (inner ++ c :: s)).length := by
      simp only [List.length_append, List.length_cons, List.length_nil] <;> omega
    rw [eI4]

/-- The Structural Scanner returns the exact index of the matching close:
for content `pre ++ body ++ c :: rest` with `body` well-formed, started at
`pre.length` (just after the opening bracket), it returns the index of the
`c` that closes the bracket. -/
theorem findMatchingBracket_balanced {o c : Char} (ho : isQuoteCh o = false)
    (hc : isQuoteCh c = false) (hoc : o ≠ c) {body : List Char}
    (hb : BalancedText o c body) (pre rest : List Char) :
    findMatchingBracket (pre ++ body ++ (c :: rest)) pre.length o c =
      ((pre.length + body.length : Nat) : Int) := by
  rw [findMatchingBracket]
  rw [fmbLoop_balanced ho hc hoc hb pre (c :: rest) 1 (by omega)]
  have eC : pre ++ body ++ (c :: rest) = (pre ++ body) ++ c :: rest := by simp
  have eI : pre.length + body.length = (pre ++ body).length := by simp
  rw [eC, eI, fmbLoop_junction_close (pre ++ body) rest o c 1 (by omega) hc hoc]
  have e0 : (1 : Nat) - 1 = 0 := rfl
  rw [e0, fmbLoop_done]
  push_cast
  omega

/-- If the text ends while the bracket is still open (a well-formed body
with no close after it), the scanner returns the failure sentinel. -/
theorem findMatchingBracket_truncated {o c : Char} (ho : isQuoteCh o = false)
    (hc : isQuoteCh c = false) (hoc : o ≠ c) {body : List Char}
    (hb : BalancedText o c body) (pre : List Char) :
    findMatchingBracket (pre ++ body) pre.length o c = -1 := by
  rw [findMatchingBracket]
  have h := fmbLoop_balanced ho hc hoc hb pre [] 1 (by omega)
  simp only [List.append_nil] at h
  rw [h]
  apply fmbLoop_oob
  · simp
  · omega

/-- Whatever the input, the scanner either fails with `-1` or returns an
in-bounds index, at or after the start position, holding the close
character. -/
theorem fmbLoop_lower (content : List Char) (o c : Char) :
    ∀ (n p d : Nat), content.length - p ≤ n → 0 < d →
      fmbLoop content o c p d = -1 ∨
      ∃ i : Nat, p ≤ i ∧ ∃ hi : i < content.length,
        content.get ⟨i, hi⟩ = c ∧ fmbLoop content o c p d = (i : Int) := by
  intro n
  induction n with
  | zero =>
    intro p d hn hd
    left
    exact fmbLoop_oob content o c p d (by omega) hd
  | succ n ih =>
    intro p d hn hd
    by_cases hp : p < content.length
    · by_cases hq : isQuoteCh (content.get ⟨p, hp⟩) = true
      · rw [fmbLoop_step_quote content o c p d hp hd hq]
        have hskip : p + 1 ≤ skipStringPos content (content.get ⟨p, hp⟩) (p + 1) := by
          rw [skipStringPos]
          exact Nat.le_add_right _ _
        rcases ih (skipStringPos content (content.get ⟨p, hp⟩) (p + 1) + 1) d
            (by omega) hd with h | ⟨i, hpi, hi, hgc, heq⟩
        · left
          exact h
        · right
          exact ⟨i, by omega, hi, hgc, heq⟩
      · by_cases heqo : content.get ⟨p, hp⟩ = o
        · rw [fmbLoop_step_open content o c p d hp hd (by simpa using hq) heqo]
          rcases ih (p + 1) (d + 1) (by omega) (by omega) with h | ⟨i, hpi, hi, hgc, heq⟩
          · left
            exact h
          · right
            exact ⟨i, by omega, hi, hgc, heq⟩
        · by_cases heqc : content.get ⟨p, hp⟩ = c
          · rw [fmbLoop_step_close content o c p d hp hd (by simpa using hq) heqo heqc]
            by_cases hd1 : d = 1
            · subst hd1
              right
              refine ⟨p, le_refl p, hp, heqc, ?_⟩
              have e0 : (1 : Nat) - 1 = 0 := rfl
              rw [e0, fmbLoop_done]
              push_cast
              omega
            · rcases ih (p + 1) (d - 1) (by omega) (by omega) with h | ⟨i, hpi, hi, hgc, heq⟩
              · left
                exact h
              · right
                exact ⟨i, by omega, hi, hgc, heq⟩
          · rw [fmbLoop_step_other content o c p d hp hd (by simpa using hq) heqo heqc]
            rcases ih (p + 1) d (by omega) hd with h | ⟨i, hpi, hi, hgc, heq⟩
            · left
              exact h
            · right
              exact ⟨i, by omega, hi, hgc, heq⟩
    · left
      exact fmbLoop_oob content o c p d (by omega) hd

/-- `findMatchingBracket` never returns an out-of-bounds index (helper
form used by the segmenter proofs). -/
theorem findMatchingBracket_cases (content : List Char) (startPos : Nat)
    (o c : Char) :
    findMatchingBracket content startPos o c = -1 ∨
    ∃ i : Nat, startPos ≤ i ∧ ∃ hi : i < content.length,
      content.get ⟨i, hi⟩ = c ∧ findMatchingBracket content startPos o c = (i : Int) :=
  fmbLoop_lower content o c content.length startPos 1 (by omega) (by omega)

/-! ## Segmenter lemmas -/

theorem obrace_not_quote : isQuoteCh obrace = false := by decide

theorem cbrace_not_quote : isQuoteCh cbrace = false := by decide

theorem obrace_ne_cbrace : obrace ≠ cbrace := by decide

theorem findIdxQ_junction (x : Char) (fill rest : List Char) (hf : x ∉ fill) :
    (fill ++ x :: rest).findIdx? (fun c => c = x) = some fill.length := by
  rw [List.findIdx?_append]
  have h1 : fill.findIdx? (fun c => decide (c = x)) = none := by
    rw [List.findIdx?_eq_none_iff]
    intro y hy
    simp only [decide_eq_false_iff_not]
    intro hh
    subst hh
    exact hf hy
  rw [h1]
  simp [List.findIdx?_cons]

theorem findIdxQ_none (x : Char) (fill : List Char) (hf : x ∉ fill) :
    fill.findIdx? (fun c => c = x) = none := by
  rw [List.findIdx?_eq_none_iff]
  intro y hy
  simp only [decide_eq_false_iff_not]
  intro hh
  subst hh
  exact hf hy

theorem indexOfFrom_junction (pre fill rest : List Char) (x : Char) (hf : x ∉ fill) :
    indexOfFrom (pre ++ (fill ++ x :: rest)) x pre.length =
      some (pre.length + fill.length) := by
  rw [indexOfFrom, List.drop_left, findIdxQ_junction x fill rest hf]

theorem indexOfFrom_none (pre fill : List Char) (x : Char) (hf : x ∉ fill) :
    indexOfFrom (pre ++ fill) x pre.length = none := by
  rw [indexOfFrom, List.drop_left, findIdxQ_none x fill hf]

theorem listExtract_junction (P mid R : List Char) :
    listExtract (P ++ (mid ++ R)) P.length (P.length + mid.length) = mid := by
  rw [listExtract, List.drop_left]
  have e : P.length + mid.length - P.length = mid.length := by omega
  rw [e, List.take_left]

theorem splitLoopF_exit (content : List Char) (f pos : Nat)
    (h : ¬ pos < content.length) : splitLoopF content f pos = [] := by
  cases f with
  | zero => rfl
  | succ n => rw [splitLoopF, if_neg h]

/-- The segment loop advances at every iteration (the in-definition guard
`pos < next`), so its value does not depend on the fuel once the fuel is
at least `content.length + 1 - pos`. -/
theorem splitLoopF_irrel (content : List Char) :
    ∀ f1 f2 pos, content.length + 1 - pos ≤ f1 →
      content.length + 1 - pos ≤ f2 →
      splitLoopF content f1 pos = splitLoopF content f2 pos := by
  intro f1
  induction f1 with
  | zero =>
    intro f2 pos h1 h2
    have hg : ¬ pos < content.length := by omega
    rw [splitLoopF_exit _ _ _ hg, splitLoopF_exit _ _ _ hg]
  | succ n ih =>
    intro f2 pos h1 h2
    by_cases hg : pos < content.length
    · match f2 with
      | 0 => omega
      | m + 1 =>
        rw [splitLoopF]
        rw [splitLoopF]
        rw [if_pos hg, if_pos hg]
        rcases hidx : indexOfFrom content obrace pos with _ | objStart
        · rfl
        · dsimp only
          by_cases hc1 : findMatchingBracket content (objStart + 1) obrace cbrace = -1
          · rw [if_pos hc1, if_pos hc1]
          · rw [if_neg hc1, if_neg hc1]
            by_cases hnext : pos <
                (findMatchingBracket content (objStart + 1) obrace cbrace).toNat + 1
            · rw [if_pos hnext, if_pos hnext]
              rw [ih m _ (by omega) (by omega)]
            · rw [if_neg hnext, if_neg hnext]
    · rw [splitLoopF_exit _ _ _ hg, splitLoopF_exit _ _ _ hg]

/-- One unfolding of the segment loop in wrapper form. -/
theorem splitLoop_unfold (content : List Char) (pos : Nat) :
    splitLoop content pos =
      if pos < content.length then
        match indexOfFrom content obrace pos with
        | none => []
        | some objStart =>
          let closeI := findMatchingBracket content (objStart + 1) obrace cbrace
          if closeI = -1 then []
          else
            let next := closeI.toNat + 1
            if pos < next then
              listExtract content objStart next :: splitLoop content next
            else []
      else [] := by
  by_cases hlen : pos < content.length
  · rw [splitLoop, splitLoopF, if_pos hlen, if_pos hlen]
    rcases hidx : indexOfFrom content obrace pos with _ | objStart
    · rfl
    · dsimp only
      by_cases hc1 : findMatchingBracket content (objStart + 1) obrace cbrace = -1
      · rw [if_pos hc1, if_pos hc1]
      · rw [if_neg hc1, if_neg hc1]
        by_cases hnext : pos <
            (findMatchingBracket content (objStart + 1) obrace cbrace).toNat + 1
        · rw [if_pos hnext, if_pos hnext, splitLoop]
          rw [splitLoopF_irrel content content.length (content.length + 1)
            ((findMatchingBracket content (objStart + 1) obrace cbrace).toNat + 1)
            (by omega) (by omega)]
        · rw [if_neg hnext, if_neg hnext]
  · rw [splitLoop, splitLoopF_exit _ _ _ hlen, if_neg hlen]

/-- The Literal Segmenter returns exactly the top-level object-literal
spans, in order, when the filler between objects contains no opening
brace. -/
theorem splitLoop_objseq :
    ∀ {s : List Char} {objs : List (List Char)}, ObjSeq s objs →
      ∀ pre : List Char, splitLoop (pre ++ s) pre.length = objs := by
  intro s objs h
  induction h with
  | last fill hf =>
    intro pre
    rw [splitLoop_unfold]
    by_cases hlen : pre.length < (pre ++ fill).length
    · rw [if_pos hlen, indexOfFrom_none pre fill obrace hf]
    · rw [if_neg hlen]
  | cons fill body s objs hf hb _hs ih =>
    intro pre
    rw [splitLoop_unfold]
    have hlen : pre.length <
        (pre ++ (fill ++ obrace :: (body ++ cbrace :: s))).length := by
      simp only [List.length_append, List.length_cons]
      omega
    rw [if_pos hlen,
      indexOfFrom_junction pre fill (body ++ cbrace :: s) obrace hf]
    have hfmb : findMatchingBracket (pre ++ (fill ++ obrace :: (body ++ cbrace :: s)))
        (pre.length + fill.length + 1) obrace cbrace =
        ((pre.length + fill.length + 1 + body.length : Nat) : Int) := by
      have eC : pre ++ (fill ++ obrace :: (body ++ cbrace :: s)) =
          ((pre ++ fill) ++ [obrace]) ++ body ++ (cbrace :: s) := by simp
      have eI : pre.length + fill.length + 1 = ((pre ++ fill) ++ [obrace]).length := by
        simp only [List.length_append, List.length_cons, List.length_nil] <;> omega
      rw [eC, eI,
        findMatchingBracket_balanced obrace_not_quote cbrace_not_quote
          obrace_ne_cbrace hb ((pre ++ fill) ++ [obrace]) s]
    simp only [hfmb]
    have hne : ¬ (((pre.length + fill.length + 1 + body.length : Nat) : Int) = -1) := by
      omega
    rw [if_neg hne]
    have htn : ((pre.length + fill.length + 1 + body.length : Nat) : Int).toNat =
        pre.length + fill.length + 1 + body.length := by
      omega
    simp only [htn]
    have hguard : pre.length < pre.length + fill.length + 1 + body.length + 1 := by
      omega
    rw [if_pos hguard]
    have hextract : listExtract (pre ++ (fill ++ obrace :: (body ++ cbrace :: s)))
        (pre.length + fill.length) (pre.length + fill.length + 1 + body.length + 1) =
        obrace :: (body ++ [cbrace]) := by
      have eC : pre ++ (fill ++ obrace :: (body ++ cbrace :: s)) =
          (pre ++ fill) ++ ((obrace :: (body ++ [cbrace])) ++ s) := by simp
      have eI : pre.length + fill.length = (pre ++ fill).length := by simp
      have eI2 : pre.length + fill.length + 1 + body.length + 1 =
          (pre ++ fill).length + (obrace :: (body ++ [cbrace])).length := by
        simp only [List.length_append, List.length_cons, List.length_nil]
        omega
      rw [eC, eI2, eI, listExtract_junction (pre ++ fill) (obrace :: (body ++ [cbrace])) s]
    rw [hextract]
    have hrec : splitLoop (pre ++ (fill ++ obrace :: (body ++ cbrace :: s)))
        (pre.length + fill.length + 1 + body.length + 1) = objs := by
      have eC : pre ++ (fill ++ obrace :: (body ++ cbrace :: s)) =
          (pre ++ fill ++ obrace :: (body ++ [cbrace])) ++ s := by simp
      have eI : pre.length + fill.length + 1 + body.length + 1 =
          (pre ++ fill ++ obrace :: (body ++ [cbrace])).length := by
        simp only [List.length_append, List.length_cons, List.length_nil]
        omega
      rw [eC, eI, ih (pre ++ fill ++ obrace :: (body ++ [cbrace]))]
    rw [hrec]

/-! ## Claim theorems: structural scanner and segmenter -/

/-- C1: for every text containing a well-formed bracketed span — whose
quoted spans (single-quote, double-quote, or backtick) may contain bracket
characters and escaped quote characters — `findMatchingBracket`, called
with the position immediately after the opening bracket, returns the exact
index of the true matching closing bracket, independent of bracket
characters inside quotes; and if the text ends before the bracket closes,
it returns the failure sentinel `-1`. -/
theorem claim_C1_scanner_correct :
    (∀ (o c : Char) (pre body rest : List Char),
      isQuoteCh o = false → isQuoteCh c = false → o ≠ c →
      BalancedText o c body →
      findMatchingBracket (pre ++ body ++ (c :: rest)) pre.length o c =
        ((pre.length + body.length : Nat) : Int)) ∧
    (∀ (o c : Char) (pre body : List Char),
      isQuoteCh o = false → isQuoteCh c = false → o ≠ c →
      BalancedText o c body →
      findMatchingBracket (pre ++ body) pre.length o c = -1) := by
  constructor
  · intro o c pre body rest ho hc hoc hb
    exact findMatchingBracket_balanced ho hc hoc hb pre rest
  · intro o c pre body ho hc hoc hb
    exact findMatchingBracket_truncated ho hc hoc hb pre

/-- Witness for C1 at `{'}'}` (a closing brace hidden inside a quoted
span) and at the truncated text `''`. -/
theorem claim_C1_witness :
    findMatchingBracket (([obrace] : List Char) ++ [quoteS, cbrace, quoteS] ++
        (cbrace :: [])) (List.length ([obrace] : List Char)) obrace cbrace =
      ((List.length ([obrace] : List Char) +
        List.length ([quoteS, cbrace, quoteS] : List Char) : Nat) : Int) ∧
    findMatchingBracket (([] : List Char) ++ [quoteS, quoteS])
      (List.length ([] : List Char)) obrace cbrace = -1 := by
  refine ⟨claim_C1_scanner_correct.1 obrace cbrace [obrace] [quoteS, cbrace, quoteS]
      [] (by decide) (by decide) (by decide) ?_,
    claim_C1_scanner_correct.2 obrace cbrace [] [quoteS, quoteS]
      (by decide) (by decide) (by decide) ?_⟩
  · exact BalancedText.quoted quoteS [cbrace] [] (by decide)
      (QBody.chr cbrace [] (by decide) (by decide) QBody.nil) BalancedText.nil
  · exact BalancedText.quoted quoteS [] [] (by decide) QBody.nil BalancedText.nil

/-- C2 (amended): for every array-literal body consisting of top-level
object literals separated by filler that contains no opening brace
character, `splitArrayIntoObjects` returns exactly the object-literal
spans, in source order, each from its opening brace to its matching
closing brace, resuming strictly after each object's end. -/
theorem claim_C2_segmenter (s : List Char) (objs : List (List Char))
    (h : ObjSeq s objs) : splitArrayIntoObjects s = objs :=
  splitLoop_objseq h []

/-- Counterexample to C2 as stated: the body `'{',{}` contains exactly one
top-level object literal (`{}`), separated by non-object filler (a quoted
span containing `{`, then a comma), yet `splitArrayIntoObjects` does not
return one span (it returns none: the quote-blind `indexOf` enters the
quoted filler). -/
theorem claim_C2_counterexample :
    ObjSeqQ c2Ex [c2ExObj] ∧ ¬ (splitArrayIntoObjects c2Ex).length = 1 := by
  constructor
  · exact ObjSeqQ.cons [quoteS, obrace, quoteS, ','] [] [] []
      (FillQuoted.quoted quoteS [obrace] [','] (by decide)
        (QBody.chr obrace [] (by decide) (by decide) QBody.nil)
        (FillQuoted.chr ',' [] (by decide) FillQuoted.nil))
      BalancedText.nil (ObjSeqQ.last [] FillQuoted.nil)
  · decide

/-- Witness for C2 at `{},{}`: two empty top-level objects, comma filler. -/
theorem claim_C2_witness :
    splitArrayIntoObjects ([obrace, cbrace, ',', obrace, cbrace]) =
      [[obrace, cbrace], [obrace, cbrace]] := by
  have h1 : ObjSeq [',', obrace, cbrace] [[obrace, cbrace]] :=
    ObjSeq.cons [','] [] [] [] (by decide) BalancedText.nil
      (ObjSeq.last [] (by decide))
  have h0 : ObjSeq [obrace, cbrace, ',', obrace, cbrace]
      [[obrace, cbrace], [obrace, cbrace]] :=
    ObjSeq.cons [] [] [',', obrace, cbrace] [[obrace, cbrace]] (by decide)
      BalancedText.nil h1
  exact claim_C2_segmenter _ _ h0

/-- C10: for every input, start position and bracket pair,
`findMatchingBracket` terminates (it is a total function here) and returns
either `-1` or an in-bounds index holding the closing bracket character —
never an out-of-bounds index, even on unterminated string literals or a
trailing escape. -/
theorem claim_C10_scanner_safe (content : List Char) (startPos : Nat)
    (o c : Char) :
    findMatchingBracket content startPos o c = -1 ∨
    ∃ i : Nat, findMatchingBracket content startPos o c = (i : Int) ∧
      ∃ hi : i < content.length, content.get ⟨i, hi⟩ = c := by
  rcases fmbLoop_lower content o c content.length startPos 1 (by omega)
    (by omega) with h | ⟨i, _, hi, hg, he⟩
  · left
    exact h
  · right
    exact ⟨i, he, hi, hg⟩

/-! ## Store-writer lemmas -/

theorem insertOptionRows_inputRows :
    ∀ (opts : List ParsedOption) (i s : Nat) (st : InputStore),
      (insertOptionRows opts i s st).inputRows = st.inputRows := by
  intro opts
  induction opts with
  | nil => intro i s st; rfl
  | cons o rest ih =>
    intro i s st
    rw [insertOptionRows, ih]

theorem insertOptionRows_nextId :
    ∀ (opts : List ParsedOption) (i s : Nat) (st : InputStore),
      (insertOptionRows opts i s st).nextId = st.nextId := by
  intro opts
  induction opts with
  | nil => intro i s st; rfl
  | cons o rest ih =>
    intro i s st
    rw [insertOptionRows, ih]

/-- The writer only appends to the `node_inputs` rows. -/
theorem insertInputs_rows_prefix_aux :
    ∀ (n : Nat) (l : List ParsedInput) (p : Option Nat) (s : Nat)
      (st : InputStore), piSizeL l ≤ n →
      ∃ t, (insertInputs l p s st).inputRows = st.inputRows ++ t := by
  intro n
  induction n with
  | zero =>
    intro l p s st hn
    cases l with
    | nil =>
      rw [insertInputs]
      exact ⟨[], by simp⟩
    | cons inp rest =>
      obtain ⟨_lab, nm, ty, _de, _ph, _rws, _gi, _gd, _hc, opts, arr, tbs⟩ := inp
      rw [piSizeL] at hn
      omega
  | succ n ih =>
    intro l p s st hn
    cases l with
    | nil =>
      rw [insertInputs]
      exact ⟨[], by simp⟩
    | cons inp rest =>
      obtain ⟨_lab, nm, ty, _de, _ph, _rws, _gi, _gd, _hc, opts, arr, tbs⟩ := inp
      rw [piSizeL] at hn
      rw [insertInputs, insertInputOne]
      set st1 : InputStore :=
        ⟨st.nextId + 1, st.inputRows ++ [⟨st.nextId, p, nm, ty, s⟩],
         st.optionRows⟩ with hst1
      set st2 := insertOptionRows opts st.nextId 0 st1 with hst2
      set st3 := insertInputs arr (some st.nextId) 0 st2 with hst3
      set st4 := insertInputs tbs (some st.nextId) 0 st3 with hst4
      obtain ⟨t5, h5⟩ := ih rest p (s + 1) st4 (by omega)
      obtain ⟨t4, h4⟩ := ih tbs (some st.nextId) 0 st3 (by omega)
      obtain ⟨t3, h3⟩ := ih arr (some st.nextId) 0 st2 (by omega)
      refine ⟨[⟨st.nextId, p, nm, ty, s⟩] ++ t3 ++ t4 ++ t5, ?_⟩
      rw [h5, hst4, h4, hst3, h3, hst2, insertOptionRows_inputRows, hst1]
      simp

theorem insertInputs_rows_mono (l : List ParsedInput) (p : Option Nat) (s : Nat)
    (st : InputStore) (r : InputRow) (hr : r ∈ st.inputRows) :
    r ∈ (insertInputs l p s st).inputRows := by
  obtain ⟨t, ht⟩ := insertInputs_rows_prefix_aux (piSizeL l) l p s st (le_refl _)
  rw [ht]
  exact List.mem_append_left t hr

/-- Each input of the processed list is written with the given parent
reference and a sort key equal to the start key plus its position. -/
theorem insertInputs_top_mem :
    ∀ (l : List ParsedInput) (p : Option Nat) (s : Nat) (st : InputStore)
      (i : Nat) (hi : i < l.length),
      ∃ id, (InputRow.mk id p ((l.get ⟨i, hi⟩).name) ((l.get ⟨i, hi⟩).type_)
        (s + i)) ∈ (insertInputs l p s st).inputRows := by
  intro l
  induction l with
  | nil =>
    intro p s st i hi
    simp at hi
  | cons inp rest ihl =>
    intro p s st i hi
    obtain ⟨_lab, nm, ty, _de, _ph, _rws, _gi, _gd, _hc, opts, arr, tbs⟩ := inp
    rw [insertInputs, insertInputOne]
    set st1 : InputStore :=
      ⟨st.nextId + 1, st.inputRows ++ [⟨st.nextId, p, nm, ty, s⟩],
       st.optionRows⟩ with hst1
    set st2 := insertOptionRows opts st.nextId 0 st1 with hst2
    set st3 := insertInputs arr (some st.nextId) 0 st2 with hst3
    set st4 := insertInputs tbs (some st.nextId) 0 st3 with hst4
    cases i with
    | zero =>
      refine ⟨st.nextId, ?_⟩
      apply insertInputs_rows_mono
      have h4 : (InputRow.mk st.nextId p nm ty (s + 0)) ∈ st4.inputRows := by
        rw [hst4]
        apply insertInputs_rows_mono
        rw [hst3]
        apply insertInputs_rows_mono
        rw [hst2, insertOptionRows_inputRows, hst1]
        simp [ParsedInput.name, ParsedInput.type_]
      exact h4
    | succ j =>
      have hj : j < rest.length := by simpa using hi
      obtain ⟨id, hmem⟩ := ihl p (s + 1) st4 j hj
      refine ⟨id, ?_⟩
      have e : s + 1 + j = s + (j + 1) := by omega
      rw [← e]
      exact hmem

/-- The structural children of an input are written with their parent
reference set to the id just generated for it, and the sibling sort key
restarted at zero. -/
theorem insertInputs_child_mem (inp : ParsedInput) (rest : List ParsedInput)
    (p : Option Nat) (s : Nat) (st : InputStore) (j : Nat)
    (hj : j < inp.array.length) :
    ∃ cid, (InputRow.mk cid (some st.nextId)
        ((inp.array.get ⟨j, hj⟩).name) ((inp.array.get ⟨j, hj⟩).type_) j) ∈
      (insertInputs (inp :: rest) p s st).inputRows := by
  obtain ⟨_lab, nm, ty, _de, _ph, _rws, _gi, _gd, _hc, opts, arr, tbs⟩ := inp
  rw [insertInputs, insertInputOne]
  set st1 : InputStore :=
    ⟨st.nextId + 1, st.inputRows ++ [⟨st.nextId, p, nm, ty, s⟩],
     st.optionRows⟩ with hst1
  set st2 := insertOptionRows opts st.nextId 0 st1 with hst2
  set st3 := insertInputs arr (some st.nextId) 0 st2 with hst3
  have hj' : j < arr.length := by simpa [ParsedInput.array] using hj
  obtain ⟨cid, hmem⟩ := insertInputs_top_mem arr (some st.nextId) 0 st2 j hj'
  refine ⟨cid, ?_⟩
  apply insertInputs_rows_mono
  apply insertInputs_rows_mono
  rw [hst3] at *
  simpa [ParsedInput.array] using hmem

/-! ## Claim theorems: store writer and field extractor -/

set_option maxRecDepth 100000 in
set_option maxHeartbeats 2000000 in
/-- C3 (amended): flattening the assembled Definition with 2 top-level
InputFields, the second structural with 3 children, yields exactly 2
top-level rows with null parent reference at sort keys 0 and 1, and
exactly 3 child rows whose parent reference is the structural field's
generated id (1) at sort keys 0, 1, 2; in general top-level InputFields
are written with a null parent reference and a sort key equal to their
position, and structural children are written under the just-obtained
identity with the sibling sort key restarted at zero. -/
theorem claim_C3_roundtrip :
    (c3St.inputRows =
      [⟨0, none, r"f1".toList, r"string".toList, 0⟩,
       ⟨1, none, r"f2".toList, r"array".toList, 1⟩,
       ⟨2, some 1, r"c1".toList, r"string".toList, 0⟩,
       ⟨3, some 1, r"c2".toList, r"number".toList, 1⟩,
       ⟨4, some 1, r"c3".toList, r"boolean".toList, 2⟩] ∧
     (c3St.inputRows.filter (fun r => r.parent_id = none)).map
        (fun r => r.sort_order) = [0, 1] ∧
     (c3St.inputRows.filter (fun r => r.parent_id = some 1)).map
        (fun r => r.sort_order) = [0, 1, 2]) ∧
    (∀ (inputs : List ParsedInput) (st : InputStore) (i : Nat)
        (hi : i < inputs.length),
      ∃ id, (InputRow.mk id none ((inputs.get ⟨i, hi⟩).name)
        ((inputs.get ⟨i, hi⟩).type_) i) ∈
          (insertInputs inputs none 0 st).inputRows) ∧
    (∀ (inp : ParsedInput) (rest : List ParsedInput) (p : Option Nat)
        (s : Nat) (st : InputStore) (j : Nat) (hj : j < inp.array.length),
      ∃ cid, (InputRow.mk cid (some st.nextId)
        ((inp.array.get ⟨j, hj⟩).name) ((inp.array.get ⟨j, hj⟩).type_) j) ∈
          (insertInputs (inp :: rest) p s st).inputRows) := by
  have hrows : c3St.inputRows =
      [⟨0, none, r"f1".toList, r"string".toList, 0⟩,
       ⟨1, none, r"f2".toList, r"array".toList, 1⟩,
       ⟨2, some 1, r"c1".toList, r"string".toList, 0⟩,
       ⟨3, some 1, r"c2".toList, r"number".toList, 1⟩,
       ⟨4, some 1, r"c3".toList, r"boolean".toList, 2⟩] := by
    decide
  refine ⟨⟨hrows, ?_, ?_⟩, ?_, ?_⟩
  · rw [hrows]
    decide
  · rw [hrows]
    decide
  · intro inputs st i hi
    have h := insertInputs_top_mem inputs none 0 st i hi
    simpa using h
  · intro inp rest p s st j hj
    exact insertInputs_child_mem inp rest p s st j hj

set_option maxRecDepth 100000 in
set_option maxHeartbeats 2000000 in
/-- Counterexample to C3 as stated: the store holds exactly 2 top-level
rows with null parent reference, not 1 — the round trip in the claim
yields one row per top-level InputField. -/
theorem claim_C3_counterexample :
    (c3St.inputRows.filter (fun r => r.parent_id = none)).length = 2 ∧
    ¬ ((c3St.inputRows.filter (fun r => r.parent_id = none)).length = 1) := by
  have h : (c3St.inputRows.filter (fun r => r.parent_id = none)).length = 2 := by
    decide
  exact ⟨h, by omega⟩

/-- Witness for C3's general parts on one-node forests. -/
theorem claim_C3_witness :
    (∃ id, (InputRow.mk id none (r"w".toList) (r"t".toList) 0) ∈
      (insertInputs [ParsedInput.mk [] (r"w".toList) (r"t".toList)
        none none none none none none [] [] []] none 0 ⟨0, [], []⟩).inputRows) ∧
    (∃ cid, (InputRow.mk cid (some 0) (r"k".toList) (r"u".toList) 0) ∈
      (insertInputs [ParsedInput.mk [] (r"p".toList) (r"array".toList)
        none none none none none none []
        [ParsedInput.mk [] (r"k".toList) (r"u".toList)
           none none none none none none [] [] []] []] none 0
        ⟨0, [], []⟩).inputRows) := by
  constructor
  · exact claim_C3_roundtrip.2.1
      [ParsedInput.mk [] (r"w".toList) (r"t".toList)
        none none none none none none [] [] []] ⟨0, [], []⟩ 0 (by decide)
  · exact claim_C3_roundtrip.2.2
      (ParsedInput.mk [] (r"p".toList) (r"array".toList)
        none none none none none none []
        [ParsedInput.mk [] (r"k".toList) (r"u".toList)
           none none none none none none [] [] []] [])
      [] none 0 ⟨0, [], []⟩ 0 (by decide)

/-- C4 (amended): whenever the extracted type discriminator is `array`
and the span has an `array:`-key match (the condition the source's
discard block actually tests), the built InputField carries no `rows`,
`placeholder`, `generateInstruction`, `generateDocStoreDescription` or
`hideCodeExecute` value, even when those keys occur inside its nested
children. -/
theorem claim_C4_array_discard :
    ∀ (objContent : List Char) (inp : ParsedInput),
      parseInputObject objContent = some inp →
      inp.type_ = arrayTypeStr →
      (findKeyMatch true arrayKey objContent).isSome = true →
      inp.rows = none ∧ inp.placeholder = none ∧
      inp.generateInstruction = none ∧
      inp.generateDocStoreDescription = none ∧ inp.hideCodeExecute = none := by
  intro objContent inp hp htype hkey
  rw [parseInputObject, parseInputObjectFuel] at hp
  split at hp
  · exact absurd hp (by simp)
  · rw [Option.some.injEq] at hp
    subst hp
    rw [ParsedInput.type_] at htype
    rw [ParsedInput.rows, ParsedInput.placeholder, ParsedInput.generateInstruction,
      ParsedInput.generateDocStoreDescription, ParsedInput.hideCodeExecute]
    rw [htype] at *
    simp [hkey]

set_option maxRecDepth 100000 in
set_option maxHeartbeats 4000000 in
/-- Counterexample to C4 as stated: for
`{ name: 'x', type: 'array', rows: 4 }` — extracted type discriminator
`array`, but no `array:` key — the built InputField does carry
`rows = 4`: the discard block only runs when an `array:` key matches. -/
theorem claim_C4_counterexample :
    (parseInputObject c4Bad).map ParsedInput.type_ = some arrayTypeStr ∧
    (parseInputObject c4Bad).map ParsedInput.rows = some (some 4) := by
  constructor
  · decide
  · decide

set_option maxRecDepth 100000 in
set_option maxHeartbeats 4000000 in
/-- Witness for C4 at the claim's own literal
`{ name: 'x', type: 'array', array: [ { name:'c1', type:'string', rows: 4 } ] }`:
the structural field does not itself carry the nested `rows` value. -/
theorem claim_C4_witness :
    (parseInputObject c4Good).map ParsedInput.rows = some none := by
  have hsome : (parseInputObject c4Good).isSome = true := by decide
  obtain ⟨inp, hinp⟩ := Option.isSome_iff_exists.mp hsome
  have htype0 : (parseInputObject c4Good).map ParsedInput.type_ =
      some arrayTypeStr := by decide
  rw [hinp] at htype0
  rw [Option.map_some'] at htype0
  rw [Option.some.injEq] at htype0
  have h := claim_C4_array_discard c4Good inp hinp htype0 (by decide)
  rw [hinp, Option.map_some', h.1]

/-! ## Resolver lemmas and claims -/

theorem mem_setDedup {x : String} : ∀ {l : List String}, x ∈ l → x ∈ setDedup l := by
  intro l
  induction l with
  | nil =>
    intro h
    simp at h
  | cons a rest ih =>
    intro h
    rw [setDedup]
    rcases List.mem_cons.mp h with rfl | hr
    · exact List.mem_cons_self _ _
    · by_cases hxa : x = a
      · subst hxa
        exact List.mem_cons_self _ _
      · apply List.mem_cons_of_mem
        apply List.mem_filter.mpr
        exact ⟨ih hr, by simp [hxa]⟩

/-- C6: if the hand-maintained chain for B contains A, then
`isTypeCompatible(B, A)` is true and B is in the reverse lookup
`getCompatibleOutputTypes(A)`; and `isTypeCompatible(X, X)` is true for
every type name X. -/
theorem claim_C6_resolver_forward :
    (∀ (A B : String) (chain : List String),
      hierarchyLookup B = some chain → A ∈ chain →
      isTypeCompatible B A = true ∧ B ∈ getCompatibleOutputTypes A) ∧
    (∀ X : String, isTypeCompatible X X = true) := by
  constructor
  · intro A B chain hB hA
    constructor
    · rw [isTypeCompatible, hB]
      simp [hA]
    · rw [getCompatibleOutputTypes]
      apply mem_setDedup
      apply List.mem_cons_of_mem
      apply List.mem_filterMap.mpr
      obtain ⟨p, hfind, hp2⟩ := Option.map_eq_some'.mp hB
      have hpmem := List.mem_of_find?_eq_some hfind
      have hp1 : p.1 = B := by
        have := List.find?_some hfind
        simpa using this
      refine ⟨p, hpmem, ?_⟩
      rw [hp2] at *
      rw [if_pos (by simpa using hA), hp1]
  · intro X
    rw [isTypeCompatible]
    simp

/-- Witness for C6 at `ChatOpenAI` / `BaseChatModel` and `Document`. -/
theorem claim_C6_witness :
    isTypeCompatible (r"ChatOpenAI") (r"BaseChatModel") = true ∧
    r"ChatOpenAI" ∈ getCompatibleOutputTypes (r"BaseChatModel") ∧
    isTypeCompatible (r"Document") (r"Document") = true := by
  have h := claim_C6_resolver_forward.1 (r"BaseChatModel") (r"ChatOpenAI")
    [r"ChatOpenAI", r"BaseChatModel", r"BaseLanguageModel", r"Runnable"]
    (by decide) (by decide)
  exact ⟨h.1, h.2, claim_C6_resolver_forward.2 (r"Document")⟩

/-- C7: a type name absent from the hand-maintained chain table falls
back to self-only compatibility, with no error:
`getAcceptingInputTypes` returns the singleton of the type,
`getCompatibleOutputTypes` contains the type itself, and
`isTypeCompatible(T, X)` holds exactly when `X = T`. -/
theorem claim_C7_unknown_type (T : String) (h : hierarchyLookup T = none) :
    getAcceptingInputTypes T = [T] ∧
    T ∈ getCompatibleOutputTypes T ∧
    ∀ X : String, (isTypeCompatible T X = true ↔ X = T) := by
  refine ⟨?_, ?_, ?_⟩
  · rw [getAcceptingInputTypes, h]
  · rw [getCompatibleOutputTypes]
    apply mem_setDedup
    exact List.mem_cons_self _ _
  · intro X
    rw [isTypeCompatible, h]
    simp [eq_comm]

/-- Witness for C7 at the unknown type name `NoSuchType`. -/
theorem claim_C7_witness :
    getAcceptingInputTypes (r"NoSuchType") = [r"NoSuchType"] ∧
    r"NoSuchType" ∈ getCompatibleOutputTypes (r"NoSuchType") ∧
    (isTypeCompatible (r"NoSuchType") (r"ChatOpenAI") = true ↔
      r"ChatOpenAI" = r"NoSuchType") := by
  have h := claim_C7_unknown_type (r"NoSuchType") (by decide)
  exact ⟨h.1, h.2.1, h.2.2 (r"ChatOpenAI")⟩

/-! ## Validator claims -/

/-- C8: against any store in which no Definition is named `Missing`, the
candidate list `[\x7bid: "n1", type: "Missing"\x7d]` with no edges yields
exactly one hard error (the does-not-exist message), the no-endpoint
warning, `valid = false`, and counts 1/0. -/
theorem claim_C8_unknown_node_type (store : List DbNode)
    (h : lookupNode store missingName = none) :
    validateFlow store [c8Node] [] =
      ⟨false, [notExistMsg missingName], [endpointWarnMsg], 1, 0⟩ := by
  have hres : resolvedName c8Node = some missingName := rfl
  have herr : nodeErrors store [c8Node] = [notExistMsg missingName] := by
    simp [nodeErrors, hres, h]
  have hw : hasEndpointNode [c8Node] = false := by decide
  simp [validateFlow, herr, hw]

/-- Witness for C8 at the empty store. -/
theorem claim_C8_witness :
    validateFlow [] [c8Node] [] =
      ⟨false, [notExistMsg missingName], [endpointWarnMsg], 1, 0⟩ :=
  claim_C8_unknown_node_type [] rfl

/-- C5 (amended): the membership set that drives the per-edge endpoint
errors is `namedIds` — the ids of every node that carried a name, whether
or not its Definition lookup succeeded. An edge whose source id is not in
that set yields the source hard error; one whose source is in the set but
whose target is not yields the target hard error. -/
theorem claim_C5_edge_endpoints :
    ∀ (store : List DbNode) (nodes : List CandidateNode)
      (edges : List CandidateEdge) (e : CandidateEdge), e ∈ edges →
      ((namedIds nodes).contains e.source = false →
        srcMissingMsg e.source ∈ (validateFlow store nodes edges).errors) ∧
      ((namedIds nodes).contains e.source = true →
        (namedIds nodes).contains e.target = false →
        tgtMissingMsg e.target ∈ (validateFlow store nodes edges).errors) := by
  intro store nodes edges e he
  have hmem : ∀ msg, msg ∈ (edgeIssues store nodes e).1 →
      msg ∈ (validateFlow store nodes edges).errors := by
    intro msg hm
    rw [validateFlow]
    apply List.mem_append_right
    apply List.mem_flatMap.mpr
    exact ⟨edgeIssues store nodes e, List.mem_map_of_mem _ he, hm⟩
  constructor
  · intro hsrc
    apply hmem
    rw [edgeIssues, if_pos (by rw [hsrc]; simp)]
    simp
  · intro hsrc htgt
    apply hmem
    rw [edgeIssues, if_neg (by rw [hsrc]; simp), if_pos (by rw [htgt]; simp)]
    simp

/-- Counterexample to C5 as stated: both `n1` and `n2` fail their
Definition lookup (store is empty), yet the edge between them produces no
endpoint hard error — the result's error list is exactly the two
node-lookup errors, with neither endpoint message present, because the
membership set admits every node that merely carried a name. -/
theorem claim_C5_counterexample :
    validateFlow [] [c8Node, c5Node2] [c5Edge] =
      ⟨false, [notExistMsg missingName, notExistMsg missing2Name],
        [endpointWarnMsg], 2, 1⟩ ∧
    srcMissingMsg c5Edge.source ∉ (validateFlow [] [c8Node, c5Node2] [c5Edge]).errors ∧
    tgtMissingMsg c5Edge.target ∉ (validateFlow [] [c8Node, c5Node2] [c5Edge]).errors := by
  refine ⟨by decide, by decide, by decide⟩

/-- Witness for the amended C5 theorem: with no nodes at all, the edge
yields the source endpoint error. -/
theorem claim_C5_witness :
    srcMissingMsg c5Edge.source ∈ (validateFlow [] [] [c5Edge]).errors :=
  (claim_C5_edge_endpoints [] [] [c5Edge] c5Edge (by decide)).1 (by decide)

/-- Concrete inputs for the C9 witness: two resolvable nodes of different
classifications joined by a structurally valid, type-compatible edge. -/
def c9D1 : DbNode := ⟨"A", "A", [], 1⟩

def c9D2 : DbNode := ⟨"B", "B", [], 0⟩

def c9Store : List DbNode := [c9D1, c9D2]

def c9N1 : CandidateNode := ⟨"a", none, some "A", none⟩

def c9N2 : CandidateNode := ⟨"b", none, some "B", none⟩

def c9Edge : CandidateEdge :=
  ⟨"a", "b", some "h1-output-o-Foo", some "h2-input-i-Foo", none⟩

/-- C9: for any two candidate nodes whose Definitions both resolve in the
store with different agentflow classifications, joined by an edge whose
structured-handle type check passes, `validateFlow` reports zero hard
errors, `valid = true`, and the classification-mismatch warning is among
the warnings. -/
theorem claim_C9_mixed_flow
    (store : List DbNode) (n1 n2 : CandidateNode) (e : CandidateEdge)
    (d1 d2 : DbNode) (nm1 nm2 : String)
    (hres1 : resolvedName n1 = some nm1) (hres2 : resolvedName n2 = some nm2)
    (hlook1 : lookupNode store nm1 = some d1)
    (hlook2 : lookupNode store nm2 = some d2)
    (hid : n2.id ≠ n1.id)
    (hsrc : e.source = n1.id) (htgt : e.target = n2.id)
    (hagent : d1.is_agentflow ≠ d2.is_agentflow)
    (hhandles : edgeHandleTypeErrors d1 d2 e.source e.target e = []) :
    (validateFlow store [n1, n2] [e]).errors = [] ∧
    (validateFlow store [n1, n2] [e]).valid = true ∧
    mixedMsg d1.label d1.is_agentflow d2.label d2.is_agentflow ∈
      (validateFlow store [n1, n2] [e]).warnings := by
  have hents : resolvedEntries store [n1, n2] = [(n1, d1), (n2, d2)] := by
    simp [resolvedEntries, hres1, hres2, hlook1, hlook2]
  have hlE1 : lookupEntry store [n1, n2] e.source = some (n1, d1) := by
    rw [lookupEntry, hents, hsrc]
    simp [List.find?, hid]
  have hlE2 : lookupEntry store [n1, n2] e.target = some (n2, d2) := by
    rw [lookupEntry, hents, htgt]
    simp [List.find?]
  have hnames : namedIds [n1, n2] = [n1.id, n2.id] := by
    simp [namedIds, hres1, hres2]
  have hcs : (namedIds [n1, n2]).contains e.source = true := by
    rw [hnames, hsrc]
    simp
  have hct : (namedIds [n1, n2]).contains e.target = true := by
    rw [hnames, htgt]
    simp
  have hei : edgeIssues store [n1, n2] e = ([], edgeClassWarnings d1 d2 e) := by
    rw [edgeIssues, if_neg (by rw [hcs]; simp), if_neg (by rw [hct]; simp),
      hlE1, hlE2]
    simp [hhandles]
  have herr : nodeErrors store [n1, n2] = [] := by
    simp [nodeErrors, hres1, hres2, hlook1, hlook2]
  refine ⟨?_, ?_, ?_⟩
  · simp [validateFlow, herr, hei]
  · simp [validateFlow, herr, hei]
  · simp only [validateFlow, List.map_cons, List.map_nil, hei,
      List.flatMap_cons, List.flatMap_nil, List.append_nil]
    apply List.mem_append.mpr
    apply Or.inr
    rw [edgeClassWarnings, if_pos hagent]
    simp

/-- Witness for C9 at the concrete two-node flow above. -/
theorem claim_C9_witness :
    (validateFlow c9Store [c9N1, c9N2] [c9Edge]).errors = [] ∧
    (validateFlow c9Store [c9N1, c9N2] [c9Edge]).valid = true ∧
    mixedMsg c9D1.label c9D1.is_agentflow c9D2.label c9D2.is_agentflow ∈
      (validateFlow c9Store [c9N1, c9N2] [c9Edge]).warnings :=
  claim_C9_mixed_flow c9Store c9N1 c9N2 c9Edge c9D1 c9D2 "A" "B"
    (by decide) (by decide) (by decide) (by decide) (by decide)
    (by decide) (by decide) (by decide) (by decide)
